import Mathlib

set_option maxRecDepth 40000
set_option linter.unusedVariables false

/-!
Verification of the process and file-descriptor subsystem of the os161
teaching kernel (stivengjinaj/os161-project).

The source tree contains several revisions of the same system-call files,
separated in the repository by revision markers.  Where a claim cites two
revisions, both are embedded here: definitions with suffix `_v1` follow the
first revision that appears in the cited file, `_v2` the second.

Numeric constants (OPEN_MAX, PROC_MAX, errno values, fcntl flags, seek and
wait constants) come from the os161 headers kern/limits.h, kern/errno.h,
kern/fcntl.h, kern/seek.h and kern/wait.h, which are not part of src/; they
are modelled from the spec with the conventional os161 values.  Only their
positivity and distinctness matter to any claim below.
-/

/-- Modelled from the spec: OPEN_MAX, the per-process file-table size from
kern/limits.h (not in src/); conventional os161 value. -/
def OPEN_MAX : Nat := 128

/-- Modelled from the spec: PROC_MAX, the process-table bound from
kern/limits.h (not in src/); the exact value is immaterial to the claims. -/
def PROC_MAX : Nat := 128

/-- Modelled from the spec: errno values from kern/errno.h (not in src/). -/
def ENOMEM : Int := 2
def EFAULT : Int := 5
def EINVAL : Int := 8
def ENPROC : Int := 12
def E2BIG : Int := 14
def ESRCH : Int := 15
def ECHILD : Int := 16
def EMFILE : Int := 28
def EBADF : Int := 30
def E_IO : Int := 32
def ESPIPE : Int := 33
def ENOSPC : Int := 35

/-- Modelled from the spec: access-mode flags from kern/fcntl.h. -/
def O_RDONLY : Nat := 0
def O_WRONLY : Nat := 1
def O_RDWR : Nat := 2
def O_ACCMODE : Nat := 3
def O_APPEND : Nat := 32

/-- Modelled from the spec: whence values from kern/seek.h. -/
def SEEK_SET : Nat := 0
def SEEK_CUR : Nat := 1
def SEEK_END : Nat := 2

/-- Modelled from the spec: waitpid option bits from kern/wait.h. -/
def WNOHANG : Nat := 1
def WUNTRACED : Nat := 2

/-- Modelled from the spec: MIPS user-space ceiling used by the first
sys_waitpid revision's status-pointer check. -/
def USERSPACETOP : Nat := 0x80000000

/-- Pointwise update of a table indexed by Nat (a store write). -/
def upd {α : Type} (f : Nat → α) (i : Nat) (v : α) : Nat → α :=
  fun j => if j = i then v else f j

/-- The struct openfile of openfile.h: vnode, access mode, byte offset and
reference count.  The per-object lock serializes the C code; the sequential
model needs no lock field. -/
structure openfile where
  vn : Nat
  mode : Nat
  offset : Int
  count : Nat
deriving DecidableEq, Repr

/-- A per-process file table: descriptor to address of an openfile object
(none = empty slot), as in struct proc's fileTable[OPEN_MAX]. -/
abbrev FileTable := Nat → Option Nat

/-- The heap of openfile objects, addressed by Nat. -/
abbrev OFStore := Nat → openfile

/-- Increment the reference count of the openfile at address a, as done by
lock_acquire; of->count++; lock_release in sys_fork. -/
def bumpCount (s : OFStore) (a : Nat) : OFStore :=
  upd s a { s a with count := (s a).count + 1 }

/-- One iteration of the fork file-table copy loop of
proc_syscalls.c:68-77 (first revision): if the parent's slot i is
installed, install the same address in the child's slot i and increment
the object's reference count; otherwise leave the state alone. -/
def sys_fork_slot_v1 (parent : FileTable) (st : FileTable × OFStore) (i : Nat) :
    FileTable × OFStore :=
  match parent i with
  | some a => (upd st.1 i (some a), bumpCount st.2 a)
  | none => st

/-- One iteration of the fork file-table copy loop of
proc_syscalls.c:538-549 (second revision): the else branch explicitly
stores NULL in the child's slot. -/
def sys_fork_slot_v2 (parent : FileTable) (st : FileTable × OFStore) (i : Nat) :
    FileTable × OFStore :=
  match parent i with
  | some a => (upd st.1 i (some a), bumpCount st.2 a)
  | none => (upd st.1 i none, st.2)

/-- The fork file-table copy of proc_syscalls.c:68-77 (first revision):
for (int i = 3; i < OPEN_MAX; i++) over the parent's table.  childInit is
the child's table as proc_create_runprogram left it (fresh console
openfiles at descriptors 0, 1, 2). -/
def sys_fork_fileTable_v1 (parent childInit : FileTable) (store : OFStore) :
    FileTable × OFStore :=
  (List.range' 3 (OPEN_MAX - 3)).foldl (sys_fork_slot_v1 parent) (childInit, store)

/-- The fork file-table copy of proc_syscalls.c:538-549 (second revision):
for (int i = 0; i < OPEN_MAX; i++). -/
def sys_fork_fileTable_v2 (parent childInit : FileTable) (store : OFStore) :
    FileTable × OFStore :=
  (List.range OPEN_MAX).foldl (sys_fork_slot_v2 parent) (childInit, store)

/-- Concrete parent file table for the C1 instances: console object at
descriptor 0 (address 7), a user file at descriptor 3 (address 0). -/
def pC1 : FileTable :=
  fun j => if j = 0 then some 7 else if j = 3 then some 0 else none

/-- Concrete child-initial table: fresh console objects at 0, 1, 2 as
installed by start_console in proc_create_runprogram. -/
def cC1 : FileTable :=
  fun j => if j = 0 then some 99 else if j = 1 then some 98 else
    if j = 2 then some 97 else none

/-- Concrete openfile store: every address holds a one-reference object. -/
def sC1 : OFStore := fun _ => { vn := 0, mode := 0, offset := 0, count := 1 }

/-- Per-process state relevant to waitpid, from struct proc: parent PID,
exited flag and encoded exit code. -/
structure procEntry where
  parent_pid : Int
  p_exited : Bool
  p_exitcode : Int
deriving DecidableEq, Repr

/-- proc_search of proc.c:148-157: NULL for pid <= 0 or pid > PROC_MAX,
otherwise the table slot for that pid. -/
def proc_search {α : Type} (tbl : Nat → Option α) (pid : Int) : Option α :=
  if pid ≤ 0 ∨ pid > (PROC_MAX : Int) then none else tbl pid.toNat

/-- Outcome of a sys_waitpid call: an error return, a normal return with the
value stored through retval, or blocking on the child's condition variable
(the child has not exited).  The success-path reap (proc_remove +
proc_destroy) mutates the table; the claims settled here concern only the
returned outcome. -/
inductive waitOutcome where
  | err (e : Int)
  | ok (retval : Int)
  | blocked
deriving DecidableEq, Repr

/-- sys_waitpid of proc_syscalls.c:316-391 (first revision): accepts WNOHANG
and WUNTRACED combinations in the options check, rejects WUNTRACED, then
range-checks a non-null status pointer before any pid validation.  status is
the user status pointer (none = NULL); copyoutOk tells whether the copyout
of the exit status succeeds. -/
def sys_waitpid_v1 (tbl : Nat → Option procEntry) (curpid pid : Int)
    (status : Option Nat) (options : Nat) (copyoutOk : Bool) : waitOutcome :=
  if options ≠ 0 ∧ options ≠ WNOHANG ∧ options ≠ WUNTRACED ∧
      options ≠ (WNOHANG ||| WUNTRACED) then .err EINVAL
  else if options &&& WUNTRACED ≠ 0 then .err EINVAL
  else if (match status with
           | some addr => decide (USERSPACETOP ≤ addr ∨ addr < 0x400000)
           | none => false) then .err EFAULT
  else if pid < 0 ∨ pid > (PROC_MAX : Int) then .err ESRCH
  else match proc_search tbl pid with
  | none => .err ESRCH
  | some child =>
    if child.parent_pid ≠ curpid then .err ECHILD
    else if options &&& WNOHANG ≠ 0 ∧ child.p_exited = false then .ok 0
    else if child.p_exited = false then .blocked
    else if status.isSome ∧ copyoutOk = false then .err EFAULT
    else .ok pid

/-- sys_waitpid of proc_syscalls.c:632-671 (second revision): any nonzero
options is EINVAL, pid <= 0 or pid > PROC_MAX is ESRCH, absent pid is ESRCH,
wrong parent is ECHILD; a failing copyout error (copyoutRes) is returned
verbatim. -/
def sys_waitpid_v2 (tbl : Nat → Option procEntry) (curpid pid : Int)
    (statusPresent : Bool) (options : Nat) (copyoutRes : Int) : waitOutcome :=
  if options ≠ 0 then .err EINVAL
  else if pid ≤ 0 ∨ pid > (PROC_MAX : Int) then .err ESRCH
  else match proc_search tbl pid with
  | none => .err ESRCH
  | some child =>
    if child.parent_pid ≠ curpid then .err ECHILD
    else if child.p_exited = false then .blocked
    else if statusPresent ∧ copyoutRes ≠ 0 then .err copyoutRes
    else .ok pid

/-- Concrete process table for the C2 instances: an exited child with
parent 2 at pid 4; every other slot empty. -/
def tblC2 : Nat → Option procEntry :=
  fun i => if i = 4 then some { parent_pid := 2, p_exited := true, p_exitcode := 0 }
    else none

/-- Result of a file syscall that may update an openfile and write the
dispatcher's retval: the returned value (0 on success, an error kind
otherwise), the resulting openfile store, and the value written through the
retval pointer (none = retval never written). -/
structure FSout where
  ret : Int
  store2 : OFStore
  retval2 : Option Int

/-- sys_write of file_syscalls.c:30-107 (first revision).  The external
collaborators are passed as oracles: allocOk = kmalloc of the kernel buffer
succeeds, copyinOk = copyin from the user buffer succeeds, vopW = outcome of
VOP_WRITE (error kind, or number of bytes written, i.e. the advance of
kuio.uio_offset over of->offset).  The ENOSPC, EIO and generic error arms of
the C code all return the VOP error verbatim with no state change. -/
def sys_write_v1 (fd : Int) (bufNull : Bool) (buflen : Nat)
    (ft : FileTable) (store : OFStore) (allocOk copyinOk : Bool)
    (vopW : Except Int Nat) : FSout :=
  if fd < 0 ∨ fd ≥ (OPEN_MAX : Int) then ⟨EBADF, store, none⟩
  else match ft fd.toNat with
  | none => ⟨EBADF, store, none⟩
  | some a =>
    if (store a).mode &&& O_ACCMODE = O_RDONLY then ⟨EBADF, store, none⟩
    else if bufNull then ⟨EFAULT, store, none⟩
    else if allocOk = false then ⟨ENOMEM, store, none⟩
    else if copyinOk = false then ⟨EFAULT, store, none⟩
    else match vopW with
    | .error e => ⟨e, store, none⟩
    | .ok written =>
        ⟨0, upd store a { store a with offset := (store a).offset + written },
          some written⟩

/-- sys_read of file_syscalls.c:109-159 (first revision).  vopR is the
outcome of VOP_READ (error kind, or bytes consumed); copyoutOk tells whether
the copyout of the kernel buffer into the user buffer succeeds.  Note the C
code updates of->offset (line 143) and *retval (line 144) before the copyout
(line 147), so a failing copyout returns EFAULT with both already changed. -/
def sys_read_v1 (fd : Int) (bufNull : Bool) (buflen : Nat)
    (ft : FileTable) (store : OFStore) (allocOk : Bool)
    (vopR : Except Int Nat) (copyoutOk : Bool) : FSout :=
  if fd < 0 ∨ fd ≥ (OPEN_MAX : Int) then ⟨EBADF, store, none⟩
  else match ft fd.toNat with
  | none => ⟨EBADF, store, none⟩
  | some a =>
    if (store a).mode &&& O_ACCMODE = O_WRONLY then ⟨EBADF, store, none⟩
    else if bufNull then ⟨EFAULT, store, none⟩
    else if allocOk = false then ⟨ENOMEM, store, none⟩
    else match vopR with
    | .error e => ⟨e, store, none⟩
    | .ok consumed =>
      let store2 := upd store a { store a with offset := (store a).offset + consumed }
      if copyoutOk = false then ⟨EFAULT, store2, some consumed⟩
      else ⟨0, store2, some consumed⟩

/-- Concrete file table for the C3 and C8 instances: a readable-writable
file at descriptor 3 (openfile address 0). -/
def ftC3 : FileTable := fun j => if j = 3 then some 0 else none

/-- Concrete openfile store for the C3 and C8 instances: address 0 holds an
O_RDWR file at offset 10. -/
def stC3 : OFStore := fun _ => { vn := 1, mode := O_RDWR, offset := 10, count := 1 }

/-- Stack-pointer alignment as written in the C sources:
*stackptr -= *stackptr % k. -/
def alignDown (sp k : Nat) : Nat := sp - sp % k

/-- The string-push loop of copy_args_to_stack (helpers.c:193-211): strings
are pushed from the last argv index down to index 0; each push subtracts
strlen+1 and then aligns the stack pointer down to a multiple of 4.  lens
lists strlen+1 per argv index; the result is the stack pointer after all
pushes together with the recorded argv string addresses argv_ptrs[0..argc-1]
in index order. -/
def copy_args_strings : List Nat → Nat → Nat × List Nat
  | [], sp => (sp, [])
  | len :: rest, sp =>
    let r := copy_args_strings rest sp
    let sp2 := alignDown (r.1 - len) 4
    (sp2, sp2 :: r.2)

/-- copy_args_to_stack of helpers.c:178-231: push the strings, then subtract
the pointer-array block ((argc+1) words of sizeof(vaddr_t) = 4 bytes) and
align the stack pointer down to a multiple of 8 before the copyout of the
array. -/
def copy_args_to_stack (lens : List Nat) (sp : Nat) : Nat × List Nat :=
  let r := copy_args_strings lens sp
  (alignDown (r.1 - (lens.length + 1) * 4) 8, r.2)

/-- The inline string-push loop of the first sys_execv revision
(proc_syscalls.c:265-287): the stack pointer is decreased by exactly
strlen+1 with no alignment. -/
def sys_execv_marshal_strings : List Nat → Nat → Nat × List Nat
  | [], sp => (sp, [])
  | len :: rest, sp =>
    let r := sys_execv_marshal_strings rest sp
    (r.1 - len, (r.1 - len) :: r.2)

/-- The inline argv marshalling of the first sys_execv revision
(proc_syscalls.c:262-303): push the strings unaligned, align the stack
pointer down to a multiple of 8, and only then subtract the pointer-array
block. -/
def sys_execv_marshal (lens : List Nat) (sp : Nat) : Nat × List Nat :=
  let r := sys_execv_marshal_strings lens sp
  (alignDown r.1 8 - (lens.length + 1) * 4, r.2)

/-- The free-descriptor scan of sys_open in file_syscalls.c:190-199 (first
revision): for (int i = 3; i < OPEN_MAX; i++), take the first NULL slot
(descriptors 0-2 are reserved for the std streams by that revision). -/
def sys_open_findfd_v1 (ft : FileTable) : Option Nat :=
  (List.range' 3 (OPEN_MAX - 3)).find? (fun i => (ft i).isNone)

/-- The free-descriptor scan of sys_open in file_syscalls.c:829-836 (second
revision): for (int i = 0; i < OPEN_MAX; i++), take the first NULL slot. -/
def sys_open_findfd_v2 (ft : FileTable) : Option Nat :=
  (List.range OPEN_MAX).find? (fun i => (ft i).isNone)

/-- sys_close of file_syscalls.c:277-310 (first revision): EBADF for an
out-of-range or empty descriptor; otherwise detach the slot and decrement
the object's refcount (the vnode close and the free at refcount 0 happen in
the external VFS and allocator). -/
def sys_close_v1 (fd : Int) (ft : FileTable) (store : OFStore) :
    Int × FileTable × OFStore :=
  if fd < 0 ∨ fd ≥ (OPEN_MAX : Int) then (EBADF, ft, store)
  else match ft fd.toNat with
  | none => (EBADF, ft, store)
  | some a =>
    (0, upd ft fd.toNat none,
      upd store a { store a with count := (store a).count - 1 })

/-- Concrete file table for the C5 instances: descriptors 0-3 installed
(addresses 10-13), everything above empty. -/
def ftC5 : FileTable := fun j => if j ≤ 3 then some (j + 10) else none

/-- Concrete file table with every slot empty (used to refute the
scan-from-0 claim on the first revision). -/
def ftEmpty : FileTable := fun _ => none

/-- Common tail of sys_lseek (first revision): reject a negative resulting
offset with EINVAL, otherwise store the new offset in the openfile and
return that same value through retval. -/
def sys_lseek_commit (store : OFStore) (a : Nat) (newOff : Int) : FSout :=
  if newOff < 0 then ⟨EINVAL, store, none⟩
  else ⟨0, upd store a { store a with offset := newOff }, some newOff⟩

/-- sys_lseek of file_syscalls.c:313-401 (first revision).  seekable is the
VOP_ISSEEKABLE oracle per vnode; statRes the VOP_STAT oracle giving the
error kind or st_size.  The switch on whence becomes an if chain; each
SEEK_CUR/SEEK_END underflow guard (pos < 0 and -pos greater than the base)
is kept as written. -/
def sys_lseek_v1 (fd pos : Int) (whence : Nat) (ft : FileTable)
    (store : OFStore) (seekable : Nat → Bool)
    (statRes : Nat → Except Int Int) : FSout :=
  if fd < 0 ∨ fd ≥ (OPEN_MAX : Int) then ⟨EBADF, store, none⟩
  else match ft fd.toNat with
  | none => ⟨EBADF, store, none⟩
  | some a =>
    if seekable (store a).vn = false then ⟨ESPIPE, store, none⟩
    else if whence = SEEK_SET then
      if pos < 0 then ⟨EINVAL, store, none⟩
      else sys_lseek_commit store a pos
    else if whence = SEEK_CUR then
      if pos < 0 ∧ (store a).offset < -pos then ⟨EINVAL, store, none⟩
      else sys_lseek_commit store a ((store a).offset + pos)
    else if whence = SEEK_END then
      match statRes (store a).vn with
      | .error e => ⟨e, store, none⟩
      | .ok size =>
        if pos < 0 ∧ size < -pos then ⟨EINVAL, store, none⟩
        else sys_lseek_commit store a (size + pos)
    else ⟨EINVAL, store, none⟩

/-- Result of the second sys_lseek revision, which writes through a
reassigned retval pointer: the returned value, the openfile store, and the
surrounding memory viewed as a word store of Int cells (the dispatcher's
retval cell lives at address raddr). -/
structure LseekOut2 where
  ret : Int
  store2 : OFStore
  mem2 : Nat → Int

/-- Common tail of the second sys_lseek revision: the successful update
writes the new offset at address rtarget - which, because of the
retval = of->offset pointer reassignment, is the old offset value, not the
caller's retval cell. -/
def sys_lseek_commit2 (store : OFStore) (a : Nat) (mem : Nat → Int)
    (rtarget : Nat) (newOff : Int) : LseekOut2 :=
  if newOff < 0 then ⟨EINVAL, store, mem⟩
  else ⟨0, upd store a { store a with offset := newOff }, upd mem rtarget newOff⟩

/-- sys_lseek of file_syscalls.c:892-982 (second revision).  Identical to
the first revision except for the line retval = of->offset executed after
lock_acquire, which overwrites the retval pointer variable with the current
offset; the final new-position store therefore goes to address
(store a).offset.toNat instead of raddr, and the caller's retval cell is
never written. -/
def sys_lseek_v2 (fd pos : Int) (whence : Nat) (ft : FileTable)
    (store : OFStore) (seekable : Nat → Bool)
    (statRes : Nat → Except Int Int) (mem : Nat → Int) (raddr : Nat) :
    LseekOut2 :=
  if fd < 0 ∨ fd ≥ (OPEN_MAX : Int) then ⟨EBADF, store, mem⟩
  else match ft fd.toNat with
  | none => ⟨EBADF, store, mem⟩
  | some a =>
    if seekable (store a).vn = false then ⟨ESPIPE, store, mem⟩
    else
      let rtarget := (store a).offset.toNat
      if whence = SEEK_SET then
        if pos < 0 then ⟨EINVAL, store, mem⟩
        else sys_lseek_commit2 store a mem rtarget pos
      else if whence = SEEK_CUR then
        if pos < 0 ∧ (store a).offset < -pos then ⟨EINVAL, store, mem⟩
        else sys_lseek_commit2 store a mem rtarget ((store a).offset + pos)
      else if whence = SEEK_END then
        match statRes (store a).vn with
        | .error e => ⟨e, store, mem⟩
        | .ok size =>
          if pos < 0 ∧ size < -pos then ⟨EINVAL, store, mem⟩
          else sys_lseek_commit2 store a mem rtarget (size + pos)
      else ⟨EINVAL, store, mem⟩

/-- Concrete file table for the C6 instances: a seekable file at
descriptor 3 (openfile address 0). -/
def ftC6 : FileTable := fun j => if j = 3 then some 0 else none

/-- Concrete openfile store for C6: address 0 holds an O_RDWR file at
offset 0. -/
def stC6 : OFStore := fun _ => { vn := 1, mode := O_RDWR, offset := 0, count := 1 }

/-- Concrete memory image for C6: every cell holds -1, so any write is
visible. -/
def memC6 : Nat → Int := fun _ => -1

/-- The circular successor used by find_valid_pid (proc.c:73 and 80):
pid = (pid + 1 > PROC_MAX) ? 1 : pid + 1. -/
def wrapPid (p : Nat) : Nat := if p + 1 > PROC_MAX then 1 else p + 1

/-- Outcome of the find_valid_pid scan: a free pid was found, the loop came
back to last_pid and returned -1, or the C while loop never terminates
(possible only when last_pid lies outside the cycle, e.g. 0 with a full
table; fuel PROC_MAX always suffices to reach last_pid when
1 <= last_pid <= PROC_MAX). -/
inductive pidScan where
  | found (pid : Nat)
  | nofree
  | loops
deriving DecidableEq, Repr

/-- The while loop of find_valid_pid (proc.c:74-81): stop with -1 when the
scan returns to last_pid (that slot is never examined), return the first
pid whose slot is NULL, else advance circularly.  occ pid is true when
processTable.proc[pid] != NULL. -/
def find_valid_pid_loop (occ : Nat → Bool) (last : Nat) :
    Nat → Nat → pidScan
  | 0, _ => .loops
  | fuel + 1, pid =>
    if pid = last then .nofree
    else if occ pid = false then .found pid
    else find_valid_pid_loop occ last fuel (wrapPid pid)

/-- find_valid_pid of proc.c:68-85: start the scan at the circular
successor of last_pid. -/
def find_valid_pid (occ : Nat → Bool) (last : Nat) : pidScan :=
  find_valid_pid_loop occ last PROC_MAX (wrapPid last)

/-- The last_pid cursor after find_valid_pid: set to the returned pid on
success (proc.c:76), unchanged otherwise. -/
def find_valid_pid_last (occ : Nat → Bool) (last : Nat) : Nat :=
  match find_valid_pid occ last with
  | .found p => p
  | _ => last

/-- Number of wrapPid steps from p forward to last_pid along the circular
order on [1, PROC_MAX]; the scan visits pids in strictly decreasing
distance. -/
def pidDist (last p : Nat) : Nat :=
  if p ≤ last then last - p else PROC_MAX + last - p

/-- Concrete occupancy for the C7 counterexample: every slot occupied
except slot 5 (which is also last_pid). -/
def occC7 : Nat → Bool := fun i => decide (i ≠ 5)

/-- Concrete occupancy for the C7 witness: slots up to 6 occupied, slot 7
and above free. -/
def occC7b : Nat → Bool := fun i => decide (i ≤ 6)

/-- Modelled from the spec: standard stream descriptors from unistd.h. -/
def STDIN_FILENO : Int := 0
def STDOUT_FILENO : Int := 1
def STDERR_FILENO : Int := 2

/-- Result of sys_open: returned value, file table, openfile store, and the
descriptor written through retval (none = retval never written). -/
structure OpenOut where
  ret : Int
  ft2 : FileTable
  store2 : OFStore
  retval2 : Option Nat

/-- sys_open of file_syscalls.c:161-275 (first revision).  newAddr is the
address the allocator would hand to the new openfile object; the
kmalloc/copyinstr/vfs_open/lock_create/VOP_STAT collaborators are oracles.
Validation order follows the C code: null path, path-buffer kmalloc,
copyinstr (any failure is mapped to EFAULT), vfs_open, free-descriptor scan
from 3 (EMFILE when full), openfile kmalloc, lock_create, the access-mode
switch (EINVAL on the default arm), and the O_APPEND VOP_STAT. -/
def sys_open_v1 (filenameNull : Bool) (flags : Nat) (ft : FileTable)
    (store : OFStore) (newAddr : Nat) (allocPathOk copyinstrOk : Bool)
    (vfsRes : Except Int Nat) (allocOfOk lockOk : Bool)
    (statRes : Nat → Except Int Int) : OpenOut :=
  if filenameNull then ⟨EFAULT, ft, store, none⟩
  else if allocPathOk = false then ⟨ENOMEM, ft, store, none⟩
  else if copyinstrOk = false then ⟨EFAULT, ft, store, none⟩
  else match vfsRes with
  | .error e => ⟨e, ft, store, none⟩
  | .ok vn =>
    match sys_open_findfd_v1 ft with
    | none => ⟨EMFILE, ft, store, none⟩
    | some fd =>
      if allocOfOk = false then ⟨ENOMEM, ft, store, none⟩
      else if lockOk = false then ⟨ENOMEM, ft, store, none⟩
      else if flags &&& O_ACCMODE ≠ O_RDONLY ∧ flags &&& O_ACCMODE ≠ O_WRONLY ∧
          flags &&& O_ACCMODE ≠ O_RDWR then ⟨EINVAL, ft, store, none⟩
      else if flags &&& O_APPEND ≠ 0 then
        match statRes vn with
        | .error e => ⟨e, ft, store, none⟩
        | .ok size =>
          ⟨0, upd ft fd (some newAddr),
            upd store newAddr ⟨vn, flags &&& O_ACCMODE, size, 1⟩, some fd⟩
      else
        ⟨0, upd ft fd (some newAddr),
          upd store newAddr ⟨vn, flags &&& O_ACCMODE, 0, 1⟩, some fd⟩

/-- sys_dup2 of file_syscalls.c:403-449: range checks, oldfd installed,
the oldfd == newfd no-op, release of a live newfd slot, then share the
pointer and bump the refcount.  Result: returned value, file table, store,
and the value written through retval. -/
def sys_dup2 (oldfd newfd : Int) (ft : FileTable) (store : OFStore) :
    Int × FileTable × OFStore × Option Int :=
  if oldfd < 0 ∨ oldfd ≥ (OPEN_MAX : Int) ∨ newfd < 0 ∨ newfd ≥ (OPEN_MAX : Int)
    then (EBADF, ft, store, none)
  else match ft oldfd.toNat with
  | none => (EBADF, ft, store, none)
  | some a =>
    if oldfd = newfd then (0, ft, store, some newfd)
    else
      match ft newfd.toNat with
      | some b =>
        (0, upd (upd ft newfd.toNat none) newfd.toNat (some a),
          bumpCount (upd store b { store b with count := (store b).count - 1 }) a,
          some newfd)
      | none => (0, upd ft newfd.toNat (some a), bumpCount store a, some newfd)

/-- sys_chdir of file_syscalls.c:452-470: null path is EFAULT, a copyinstr
error is returned verbatim, otherwise the vfs_chdir result is returned
verbatim (0 on success). -/
def sys_chdir (pathNull : Bool) (copyinstrRes : Except Int Unit)
    (vfsChdirRes : Int) : Int :=
  if pathNull then EFAULT
  else match copyinstrRes with
  | .error e => e
  | .ok _ => vfsChdirRes

/-- sys___getcwd of file_syscalls.c:473-519: null buffer EFAULT, zero
length EINVAL, kmalloc ENOMEM, a vfs_getcwd error verbatim, a copyout
failure EFAULT; on success the byte count is written through retval.
Result: returned value and the retval write. -/
def sys___getcwd (bufNull : Bool) (buflen : Nat) (allocOk : Bool)
    (vfsRes : Except Int Nat) (copyoutOk : Bool) : Int × Option Int :=
  if bufNull then (EFAULT, none)
  else if buflen = 0 then (EINVAL, none)
  else if allocOk = false then (ENOMEM, none)
  else match vfsRes with
  | .error e => (e, none)
  | .ok len => if copyoutOk = false then (EFAULT, none) else (0, some (len : Int))

/-- sys_write of src/unnamed/part_004:30-89 (an earlier revision with the
bytes-or-negative-error return convention): every error return is the
NEGATED errno (-EBADF for a bad descriptor, -result for a VOP_WRITE
failure); stdout/stderr bypass the file table and return the size. -/
def sys_write_p4 (fd : Int) (size : Nat) (ft : FileTable) (store : OFStore)
    (vopW : Except Int Nat) : Int × OFStore :=
  if fd < 0 ∨ fd ≥ (OPEN_MAX : Int) then (-EBADF, store)
  else if fd = STDOUT_FILENO ∨ fd = STDERR_FILENO then ((size : Int), store)
  else match ft fd.toNat with
  | none => (-EBADF, store)
  | some a =>
    if (store a).mode = O_RDONLY then (-EBADF, store)
    else match vopW with
    | .error e => (-e, store)
    | .ok written =>
      ((written : Int),
        upd store a { store a with offset := (store a).offset + written })

/-- A process object as allocated in proc_create; only the p_pid field
matters to the table invariant.  Before proc_create's line 205 assignment
the field holds whatever the allocator left there. -/
structure procObj where
  p_pid : Int
deriving DecidableEq, Repr

/-- The heap of process objects, addressed by object id. -/
abbrev ObjStore := Nat → procObj

/-- The table write of proc_add (proc.c:104-111): under the spinlock,
processTable.proc[pid] = proc, guarded by pid <= 0 or pid > PROC_MAX. -/
def proc_add_table (tbl : Nat → Option Nat) (pid : Int) (obj : Nat) :
    Nat → Option Nat :=
  if pid ≤ 0 ∨ pid > (PROC_MAX : Int) then tbl
  else upd tbl pid.toNat (some obj)

/-- The return value of proc_add (proc.c:104-128): -1 on a guard failure or
a failed cv/lock creation, otherwise proc->p_pid - a read of the object's
pid field, which proc_create has not assigned yet at that point. -/
def proc_add_ret (os : ObjStore) (pid : Int) (obj : Nat) (cvOk : Bool) : Int :=
  if pid ≤ 0 ∨ pid > (PROC_MAX : Int) then -1
  else if cvOk = false then -1
  else (os obj).p_pid

/-- proc_remove of proc.c:133-143: clear the slot for an in-range pid. -/
def proc_remove (tbl : Nat → Option Nat) (pid : Int) : Nat → Option Nat :=
  if pid ≤ 0 ∨ pid > (PROC_MAX : Int) then tbl else upd tbl pid.toNat none

/-- The state of proc_create (proc.c:196-206) just after proc_add has
published the new object in the table and released the spinlock, but before
the assignment proc->p_pid = pid on line 205: the table already holds obj
at slot pid while the object's pid field still holds its prior value. -/
def proc_create_mid (tbl : Nat → Option Nat) (os : ObjStore) (pid : Int)
    (obj : Nat) : (Nat → Option Nat) × ObjStore :=
  (proc_add_table tbl pid obj, os)

/-- The state after proc_create's assignment proc->p_pid = pid (line 205)
completes. -/
def proc_create_fin (tbl : Nat → Option Nat) (os : ObjStore) (pid : Int)
    (obj : Nat) : (Nat → Option Nat) × ObjStore :=
  (proc_add_table tbl pid obj, upd os obj { p_pid := pid })

/-- The claimed process-table invariant: every non-null slot holds an
object whose pid field equals the slot index. -/
def tablePidInv (tbl : Nat → Option Nat) (os : ObjStore) : Prop :=
  ∀ i obj, i ≤ PROC_MAX → tbl i = some obj → (os obj).p_pid = (i : Int)

/-- Concrete table for the C9 instances: the kernel process (object 0,
pid 0) at slot 0; all other slots empty. -/
def tblC9 : Nat → Option Nat := fun i => if i = 0 then some 0 else none

/-- Concrete object heap for C9: object 1 is freshly allocated and its pid
field holds the garbage value 7777; object 0 is the kernel process. -/
def osC9 : ObjStore := fun o => if o = 1 then { p_pid := 7777 } else { p_pid := 0 }

/-- process_table_init of proc.c:90-99: slot 0 holds the kernel process
object (whose p_pid is set to 0) and slots 1..PROC_MAX are cleared.  kId is
the kernel process object id. -/
def process_table_init (kId : Nat) : Nat → Option Nat :=
  fun i => if i = 0 then some kId else none

theorem fork_v1_foldl_table (parent : FileTable) :
    ∀ (L : List Nat) (st : FileTable × OFStore) (j : Nat),
    (L.foldl (sys_fork_slot_v1 parent) st).1 j =
      if j ∈ L ∧ (parent j).isSome then parent j else st.1 j := by
  intro L
  induction L with
  | nil => intro st j; simp
  | cons i L ih =>
    intro st j
    rw [List.foldl_cons, ih]
    by_cases hL : j ∈ L ∧ (parent j).isSome
    · simp [hL, hL.1, hL.2]
    · rw [if_neg hL]
      by_cases hj : j = i
      · subst hj
        cases hp : parent j with
        | none => simp [sys_fork_slot_v1, hp]
        | some a => simp [sys_fork_slot_v1, hp, upd]
      · cases hp : parent i with
        | none =>
          simp only [sys_fork_slot_v1, hp]
          rw [if_neg]
          intro h
          exact hL ⟨(List.mem_cons.mp h.1).resolve_left hj, h.2⟩
        | some a =>
          simp only [sys_fork_slot_v1, hp, upd]
          rw [if_neg hj, if_neg]
          intro h
          exact hL ⟨(List.mem_cons.mp h.1).resolve_left hj, h.2⟩

theorem fork_v2_foldl_table (parent : FileTable) :
    ∀ (L : List Nat) (st : FileTable × OFStore) (j : Nat),
    (L.foldl (sys_fork_slot_v2 parent) st).1 j =
      if j ∈ L then parent j else st.1 j := by
  intro L
  induction L with
  | nil => intro st j; simp
  | cons i L ih =>
    intro st j
    rw [List.foldl_cons, ih]
    by_cases hL : j ∈ L
    · simp [hL]
    · rw [if_neg hL]
      by_cases hj : j = i
      · subst hj
        cases hp : parent j with
        | none => simp [sys_fork_slot_v2, hp, upd]
        | some a => simp [sys_fork_slot_v2, hp, upd]
      · cases hp : parent i with
        | none =>
          simp only [sys_fork_slot_v2, hp, upd]
          rw [if_neg hj, if_neg]
          intro h
          exact hL ((List.mem_cons.mp h).resolve_left hj)
        | some a =>
          simp only [sys_fork_slot_v2, hp, upd]
          rw [if_neg hj, if_neg]
          intro h
          exact hL ((List.mem_cons.mp h).resolve_left hj)

theorem fork_v1_foldl_count (parent : FileTable) (a : Nat) :
    ∀ (L : List Nat) (st : FileTable × OFStore),
    ((L.foldl (sys_fork_slot_v1 parent) st).2 a).count =
      (st.2 a).count + L.countP (fun i => decide (parent i = some a)) := by
  intro L
  induction L with
  | nil => intro st; simp
  | cons i L ih =>
    intro st
    rw [List.foldl_cons, ih, List.countP_cons]
    cases hp : parent i with
    | none =>
      simp [sys_fork_slot_v1, hp]
    | some b =>
      by_cases hab : b = a
      · subst hab
        simp [sys_fork_slot_v1, hp, bumpCount, upd]
        omega
      · simp [sys_fork_slot_v1, hp, bumpCount, upd, hab, Ne.symm hab]

theorem fork_v2_foldl_count (parent : FileTable) (a : Nat) :
    ∀ (L : List Nat) (st : FileTable × OFStore),
    ((L.foldl (sys_fork_slot_v2 parent) st).2 a).count =
      (st.2 a).count + L.countP (fun i => decide (parent i = some a)) := by
  intro L
  induction L with
  | nil => intro st; simp
  | cons i L ih =>
    intro st
    rw [List.foldl_cons, ih, List.countP_cons]
    cases hp : parent i with
    | none =>
      simp [sys_fork_slot_v2, hp]
    | some b =>
      by_cases hab : b = a
      · subst hab
        simp [sys_fork_slot_v2, hp, bumpCount, upd]
        omega
      · simp [sys_fork_slot_v2, hp, bumpCount, upd, hab, Ne.symm hab]

theorem countP_eq_one_unique {p : Nat → Bool} :
    ∀ (L : List Nat), L.Nodup → ∀ i ∈ L, p i = true →
    (∀ j ∈ L, j ≠ i → p j = false) → L.countP p = 1 := by
  intro L
  induction L with
  | nil => intro _ i hi; exact absurd hi (List.not_mem_nil i)
  | cons h L ih =>
    intro hnd i hi hpi hother
    rcases List.mem_cons.mp hi with hhead | htail
    · subst hhead
      rw [List.countP_cons, if_pos hpi]
      have hz : L.countP p = 0 := by
        rw [List.countP_eq_zero]
        intro j hj
        have hji : j ≠ i := by
          intro hji; subst hji
          exact (List.nodup_cons.mp hnd).1 hj
        simp [hother j (List.mem_cons_of_mem _ hj) hji]
      omega
    · have hph : p h = false := by
        apply hother h (List.mem_cons_self h L)
        intro hhi; subst hhi
        exact (List.nodup_cons.mp hnd).1 htail
      rw [List.countP_cons, if_neg (by simp [hph])]
      have := ih (List.nodup_cons.mp hnd).2 i htail hpi
        (fun j hj hji => hother j (List.mem_cons_of_mem _ hj) hji)
      omega

/-- C1 (corrected).  In the first sys_fork revision the file-table copy loop
runs over descriptors 3..OPEN_MAX-1 only, so the claim fails for installed
descriptors 0-2 (the child keeps the fresh console objects installed by
proc_create_runprogram): with the parent's console at descriptor 0 the
child's slot 0 holds a different object and the parent object's refcount is
unchanged. -/
theorem C1_fork_counterexample :
    ¬ (∀ (parent childInit : FileTable) (store : OFStore) (i a : Nat),
        i < OPEN_MAX → parent i = some a →
        (sys_fork_fileTable_v1 parent childInit store).1 i = some a ∧
        ((sys_fork_fileTable_v1 parent childInit store).2 a).count =
          (store a).count + 1) := by
  intro h
  have h0 := (h pC1 cC1 sC1 0 7 (by decide) (by decide)).1
  have hv : (sys_fork_fileTable_v1 pC1 cC1 sC1).1 0 = some 99 := by decide
  rw [hv] at h0
  exact absurd h0 (by decide)

/-- C1 (amended).  For every descriptor i with 3 <= i < OPEN_MAX installed in
the parent, the first sys_fork revision installs the same openfile address in
the child's slot i and increments that object's refcount once per parent slot
in [3, OPEN_MAX) referring to it - exactly one when no other descriptor in
that range aliases it.  The second revision does the same for every installed
descriptor including 0-2. -/
theorem C1_fork_file_table_sharing_amended :
    (∀ (parent childInit : FileTable) (store : OFStore) (i a : Nat),
       3 ≤ i → i < OPEN_MAX → parent i = some a →
       (sys_fork_fileTable_v1 parent childInit store).1 i = some a ∧
       ((sys_fork_fileTable_v1 parent childInit store).2 a).count =
         (store a).count +
           (List.range' 3 (OPEN_MAX - 3)).countP (fun j => decide (parent j = some a))) ∧
    (∀ (parent childInit : FileTable) (store : OFStore) (i a : Nat),
       3 ≤ i → i < OPEN_MAX → parent i = some a →
       (∀ j, j < OPEN_MAX → 3 ≤ j → j ≠ i → parent j ≠ some a) →
       ((sys_fork_fileTable_v1 parent childInit store).2 a).count =
         (store a).count + 1) ∧
    (∀ (parent childInit : FileTable) (store : OFStore) (i a : Nat),
       i < OPEN_MAX → parent i = some a →
       (sys_fork_fileTable_v2 parent childInit store).1 i = some a ∧
       ((sys_fork_fileTable_v2 parent childInit store).2 a).count =
         (store a).count +
           (List.range OPEN_MAX).countP (fun j => decide (parent j = some a))) := by
  refine ⟨?_, ?_, ?_⟩
  · intro parent childInit store i a h3 hlt hpi
    constructor
    · rw [sys_fork_fileTable_v1, fork_v1_foldl_table]
      rw [if_pos ⟨List.mem_range'_1.mpr ⟨h3, by omega⟩, by simp [hpi]⟩]
      exact hpi
    · exact fork_v1_foldl_count parent a _ _
  · intro parent childInit store i a h3 hlt hpi huniq
    rw [sys_fork_fileTable_v1, fork_v1_foldl_count]
    have hone : (List.range' 3 (OPEN_MAX - 3)).countP
        (fun j => decide (parent j = some a)) = 1 := by
      apply countP_eq_one_unique _ (List.nodup_range' 3 (OPEN_MAX - 3)) i
      · exact List.mem_range'_1.mpr ⟨h3, by omega⟩
      · simp [hpi]
      · intro j hj hji
        have hmem := List.mem_range'_1.mp hj
        simp only [decide_eq_false_iff_not]
        exact huniq j (by omega) hmem.1 hji
    rw [hone]
  · intro parent childInit store i a hlt hpi
    constructor
    · rw [sys_fork_fileTable_v2, fork_v2_foldl_table]
      rw [if_pos (List.mem_range.mpr hlt)]
      exact hpi
    · exact fork_v2_foldl_count parent a _ _

/-- C1 witness: the amended theorem applied to the concrete parent table pC1
at descriptor 3 (openfile address 0). -/
theorem C1_fork_witness :
    (sys_fork_fileTable_v1 pC1 cC1 sC1).1 3 = some 0 ∧
    ((sys_fork_fileTable_v1 pC1 cC1 sC1).2 0).count = (sC1 0).count + 1 :=
  ⟨(C1_fork_file_table_sharing_amended.1 pC1 cC1 sC1 3 0 (by decide) (by decide)
      (by decide)).1,
   C1_fork_file_table_sharing_amended.2.1 pC1 cC1 sC1 3 0 (by decide) (by decide)
      (by decide) (by decide)⟩

/-- C2 (corrected).  The first sys_waitpid revision accepts the nonzero
options value WNOHANG instead of returning EINVAL (here, on an empty table,
it reaches the pid lookup and returns ESRCH); and with a non-null
out-of-range status pointer it returns EFAULT even for pid 0, where the
claim requires ESRCH. -/
theorem C2_waitpid_counterexample :
    (¬ (∀ (tbl : Nat → Option procEntry) (curpid pid : Int) (status : Option Nat)
          (options : Nat) (cOk : Bool), options ≠ 0 →
          sys_waitpid_v1 tbl curpid pid status options cOk = .err EINVAL)) ∧
    sys_waitpid_v1 (fun _ => none) 2 0 (some 0) 0 true = .err EFAULT ∧
    EFAULT ≠ ESRCH := by
  refine ⟨?_, by decide, by decide⟩
  intro h
  have h1 := h (fun _ => none) 2 5 none WNOHANG true (by decide)
  have h2 : sys_waitpid_v1 (fun _ => none) 2 5 none WNOHANG true = .err ESRCH := by
    decide
  rw [h2] at h1
  exact absurd h1 (by decide)

/-- C2 (amended).  The second sys_waitpid revision behaves exactly as
claimed: every nonzero options value yields EINVAL; pid <= 0, pid > PROC_MAX
or an absent pid yields ESRCH; an existing process whose parent_pid differs
from the caller yields ECHILD.  The first revision returns EINVAL for every
nonzero options other than WNOHANG (WNOHANG is accepted), and - provided the
status pointer is NULL - returns ESRCH whenever the lookup fails (pid 0,
out-of-range, or absent) and ECHILD when the target's parent differs. -/
theorem C2_waitpid_errors_amended :
    (∀ (tbl : Nat → Option procEntry) (curpid pid : Int) (sp : Bool)
       (options : Nat) (cr : Int), options ≠ 0 →
       sys_waitpid_v2 tbl curpid pid sp options cr = .err EINVAL) ∧
    (∀ (tbl : Nat → Option procEntry) (curpid pid : Int) (sp : Bool) (cr : Int),
       proc_search tbl pid = none →
       sys_waitpid_v2 tbl curpid pid sp 0 cr = .err ESRCH) ∧
    (∀ (tbl : Nat → Option procEntry) (curpid pid : Int) (sp : Bool) (cr : Int)
       (c : procEntry), proc_search tbl pid = some c → c.parent_pid ≠ curpid →
       sys_waitpid_v2 tbl curpid pid sp 0 cr = .err ECHILD) ∧
    (∀ (tbl : Nat → Option procEntry) (curpid pid : Int) (status : Option Nat)
       (options : Nat) (cOk : Bool), options ≠ 0 → options ≠ WNOHANG →
       sys_waitpid_v1 tbl curpid pid status options cOk = .err EINVAL) ∧
    (∀ (tbl : Nat → Option procEntry) (curpid pid : Int) (cOk : Bool),
       proc_search tbl pid = none →
       sys_waitpid_v1 tbl curpid pid none 0 cOk = .err ESRCH) ∧
    (∀ (tbl : Nat → Option procEntry) (curpid pid : Int) (cOk : Bool)
       (c : procEntry), proc_search tbl pid = some c → c.parent_pid ≠ curpid →
       sys_waitpid_v1 tbl curpid pid none 0 cOk = .err ECHILD) := by
  refine ⟨?_, ?_, ?_, ?_, ?_, ?_⟩
  · intro tbl curpid pid sp options cr hopt
    rw [sys_waitpid_v2, if_pos hopt]
  · intro tbl curpid pid sp cr hsearch
    rw [sys_waitpid_v2, if_neg (by simp)]
    by_cases hrange : pid ≤ 0 ∨ pid > (PROC_MAX : Int)
    · rw [if_pos hrange]
    · rw [if_neg hrange, hsearch]
  · intro tbl curpid pid sp cr c hsearch hpar
    rw [sys_waitpid_v2, if_neg (by simp)]
    rw [if_neg (by
      intro hrange
      rw [proc_search, if_pos hrange] at hsearch
      exact Option.noConfusion hsearch)]
    rw [hsearch]
    simp only []
    rw [if_pos hpar]
  · intro tbl curpid pid status options cOk h0 h1
    by_cases h2 : options = WUNTRACED
    · subst h2
      rw [sys_waitpid_v1.eq_def, if_neg (by simp), if_pos (by decide)]
    · by_cases h3 : options = WNOHANG ||| WUNTRACED
      · subst h3
        rw [sys_waitpid_v1.eq_def, if_neg (by simp), if_pos (by decide)]
      · rw [sys_waitpid_v1.eq_def, if_pos ⟨h0, h1, h2, h3⟩]
  · intro tbl curpid pid cOk hsearch
    rw [sys_waitpid_v1, if_neg (by decide), if_neg (by decide), if_neg (by simp)]
    by_cases hrange : pid < 0 ∨ pid > (PROC_MAX : Int)
    · rw [if_pos hrange]
    · rw [if_neg hrange, hsearch]
  · intro tbl curpid pid cOk c hsearch hpar
    rw [sys_waitpid_v1, if_neg (by decide), if_neg (by decide), if_neg (by simp)]
    rw [if_neg (by
      intro hrange
      have : pid ≤ 0 ∨ pid > (PROC_MAX : Int) := by omega
      rw [proc_search, if_pos this] at hsearch
      exact Option.noConfusion hsearch)]
    rw [hsearch]
    simp only []
    rw [if_pos hpar]

/-- C2 witness: the amended theorem applied to the concrete table tblC2, at
a nonzero option for the second revision and at the existing child pid 4
with a non-parent caller. -/
theorem C2_waitpid_witness :
    sys_waitpid_v2 tblC2 2 4 true 1 0 = .err EINVAL ∧
    sys_waitpid_v2 tblC2 9 4 true 0 0 = .err ECHILD ∧
    sys_waitpid_v1 tblC2 9 4 none 0 true = .err ECHILD :=
  ⟨C2_waitpid_errors_amended.1 tblC2 2 4 true 1 0 (by decide),
   C2_waitpid_errors_amended.2.2.1 tblC2 9 4 true 0
     { parent_pid := 2, p_exited := true, p_exitcode := 0 } (by decide) (by decide),
   C2_waitpid_errors_amended.2.2.2.2.2 tblC2 9 4 true
     { parent_pid := 2, p_exited := true, p_exitcode := 0 } (by decide) (by decide)⟩

theorem sys_write_v1_cases (fd : Int) (bufNull : Bool) (buflen : Nat)
    (ft : FileTable) (store : OFStore) (allocOk copyinOk : Bool)
    (vopW : Except Int Nat) :
    sys_write_v1 fd bufNull buflen ft store allocOk copyinOk vopW = ⟨EBADF, store, none⟩ ∨
    sys_write_v1 fd bufNull buflen ft store allocOk copyinOk vopW = ⟨EFAULT, store, none⟩ ∨
    sys_write_v1 fd bufNull buflen ft store allocOk copyinOk vopW = ⟨ENOMEM, store, none⟩ ∨
    (∃ e, vopW = Except.error e ∧
      sys_write_v1 fd bufNull buflen ft store allocOk copyinOk vopW = ⟨e, store, none⟩) ∨
    (∃ a written, ft fd.toNat = some a ∧ vopW = Except.ok written ∧
      sys_write_v1 fd bufNull buflen ft store allocOk copyinOk vopW =
        ⟨0, upd store a { store a with offset := (store a).offset + written },
          some written⟩) := by
  by_cases h1 : fd < 0 ∨ fd ≥ (OPEN_MAX : Int)
  · exact Or.inl (by simp [sys_write_v1, h1])
  cases hft : ft fd.toNat with
  | none => exact Or.inl (by simp [sys_write_v1, h1, hft])
  | some a =>
    by_cases h2 : (store a).mode &&& O_ACCMODE = O_RDONLY
    · exact Or.inl (by simp [sys_write_v1, h1, hft, h2])
    by_cases h3 : bufNull
    · exact Or.inr (Or.inl (by simp [sys_write_v1, h1, hft, h2, h3]))
    by_cases h4 : allocOk = false
    · exact Or.inr (Or.inr (Or.inl (by simp [sys_write_v1, h1, hft, h2, h3, h4])))
    by_cases h5 : copyinOk = false
    · exact Or.inr (Or.inl (by simp [sys_write_v1, h1, hft, h2, h3, h4, h5]))
    cases hv : vopW with
    | error e =>
      exact Or.inr (Or.inr (Or.inr (Or.inl
        ⟨e, rfl, by simp [sys_write_v1, h1, hft, h2, h3, h4, h5, hv]⟩)))
    | ok written =>
      exact Or.inr (Or.inr (Or.inr (Or.inr
        ⟨a, written, rfl, rfl,
          by simp [sys_write_v1, h1, hft, h2, h3, h4, h5, hv]⟩)))

theorem sys_read_v1_cases (fd : Int) (bufNull : Bool) (buflen : Nat)
    (ft : FileTable) (store : OFStore) (allocOk : Bool)
    (vopR : Except Int Nat) (copyoutOk : Bool) :
    sys_read_v1 fd bufNull buflen ft store allocOk vopR copyoutOk = ⟨EBADF, store, none⟩ ∨
    sys_read_v1 fd bufNull buflen ft store allocOk vopR copyoutOk = ⟨EFAULT, store, none⟩ ∨
    sys_read_v1 fd bufNull buflen ft store allocOk vopR copyoutOk = ⟨ENOMEM, store, none⟩ ∨
    (∃ e, vopR = Except.error e ∧
      sys_read_v1 fd bufNull buflen ft store allocOk vopR copyoutOk = ⟨e, store, none⟩) ∨
    (∃ a consumed, ft fd.toNat = some a ∧ vopR = Except.ok consumed ∧
      copyoutOk = false ∧
      sys_read_v1 fd bufNull buflen ft store allocOk vopR copyoutOk =
        ⟨EFAULT, upd store a { store a with offset := (store a).offset + consumed },
          some consumed⟩) ∨
    (∃ a consumed, ft fd.toNat = some a ∧ vopR = Except.ok consumed ∧
      copyoutOk = true ∧
      sys_read_v1 fd bufNull buflen ft store allocOk vopR copyoutOk =
        ⟨0, upd store a { store a with offset := (store a).offset + consumed },
          some consumed⟩) := by
  by_cases h1 : fd < 0 ∨ fd ≥ (OPEN_MAX : Int)
  · exact Or.inl (by simp [sys_read_v1, h1])
  cases hft : ft fd.toNat with
  | none => exact Or.inl (by simp [sys_read_v1, h1, hft])
  | some a =>
    by_cases h2 : (store a).mode &&& O_ACCMODE = O_WRONLY
    · exact Or.inl (by simp [sys_read_v1, h1, hft, h2])
    by_cases h3 : bufNull
    · exact Or.inr (Or.inl (by simp [sys_read_v1, h1, hft, h2, h3]))
    by_cases h4 : allocOk = false
    · exact Or.inr (Or.inr (Or.inl (by simp [sys_read_v1, h1, hft, h2, h3, h4])))
    cases hv : vopR with
    | error e =>
      exact Or.inr (Or.inr (Or.inr (Or.inl
        ⟨e, rfl, by simp [sys_read_v1, h1, hft, h2, h3, h4, hv]⟩)))
    | ok consumed =>
      cases hc : copyoutOk with
      | false =>
        refine Or.inr (Or.inr (Or.inr (Or.inr (Or.inl
          ⟨a, consumed, rfl, rfl, rfl, ?_⟩))))
        simp [sys_read_v1, h1, hft, h2, h3, h4, hv]
      | true =>
        refine Or.inr (Or.inr (Or.inr (Or.inr (Or.inr
          ⟨a, consumed, rfl, rfl, rfl, ?_⟩))))
        simp [sys_read_v1, h1, hft, h2, h3, h4, hv]

/-- C3 (corrected).  sys_read in the first file_syscalls.c revision updates
the offset before the copyout: at descriptor 3, with VOP_READ consuming 5
bytes and a failing copyout, the call returns EFAULT (an error) with the
offset advanced from 10 to 15. -/
theorem C3_rw_offset_counterexample :
    ¬ (∀ (fd : Int) (bufNull : Bool) (buflen : Nat) (ft : FileTable)
         (store : OFStore) (allocOk : Bool) (vopR : Except Int Nat) (cOk : Bool)
         (a : Nat), ft fd.toNat = some a →
         (sys_read_v1 fd bufNull buflen ft store allocOk vopR cOk).ret ≠ 0 →
         ((sys_read_v1 fd bufNull buflen ft store allocOk vopR cOk).store2 a).offset =
           (store a).offset) := by
  intro h
  have h0 := h 3 false 5 ftC3 stC3 true (.ok 5) false 0 (by decide) (by decide)
  have hv : ((sys_read_v1 3 false 5 ftC3 stC3 true (.ok 5) false).store2 0).offset
      = 15 := by decide
  rw [hv] at h0
  exact absurd h0 (by decide)

/-- C3 (amended).  sys_write never changes the offset on an error return and
on success advances it by exactly the returned byte count.  sys_read leaves
the offset unchanged on every error return in which the result scalar was
never written (validation and VOP_READ failures); when the result scalar was
written the return is either success or EFAULT from the final copyout, and
in both cases the offset has advanced by exactly the byte count recorded in
the result scalar. -/
theorem C3_rw_offset_amended :
    (∀ (fd : Int) (bufNull : Bool) (buflen : Nat) (ft : FileTable)
       (store : OFStore) (allocOk copyinOk : Bool) (vopW : Except Int Nat),
       (sys_write_v1 fd bufNull buflen ft store allocOk copyinOk vopW).ret ≠ 0 →
       (sys_write_v1 fd bufNull buflen ft store allocOk copyinOk vopW).store2 = store ∧
       (sys_write_v1 fd bufNull buflen ft store allocOk copyinOk vopW).retval2 = none) ∧
    (∀ (fd : Int) (bufNull : Bool) (buflen : Nat) (ft : FileTable)
       (store : OFStore) (allocOk copyinOk : Bool) (vopW : Except Int Nat)
       (a : Nat) (w : Int), ft fd.toNat = some a →
       (sys_write_v1 fd bufNull buflen ft store allocOk copyinOk vopW).retval2 = some w →
       (sys_write_v1 fd bufNull buflen ft store allocOk copyinOk vopW).ret = 0 ∧
       ((sys_write_v1 fd bufNull buflen ft store allocOk copyinOk vopW).store2 a).offset =
         (store a).offset + w) ∧
    (∀ (fd : Int) (bufNull : Bool) (buflen : Nat) (ft : FileTable)
       (store : OFStore) (allocOk : Bool) (vopR : Except Int Nat) (cOk : Bool),
       (sys_read_v1 fd bufNull buflen ft store allocOk vopR cOk).ret ≠ 0 →
       (sys_read_v1 fd bufNull buflen ft store allocOk vopR cOk).retval2 = none →
       (sys_read_v1 fd bufNull buflen ft store allocOk vopR cOk).store2 = store) ∧
    (∀ (fd : Int) (bufNull : Bool) (buflen : Nat) (ft : FileTable)
       (store : OFStore) (allocOk : Bool) (vopR : Except Int Nat) (cOk : Bool)
       (a : Nat) (w : Int), ft fd.toNat = some a →
       (sys_read_v1 fd bufNull buflen ft store allocOk vopR cOk).retval2 = some w →
       ((sys_read_v1 fd bufNull buflen ft store allocOk vopR cOk).store2 a).offset =
         (store a).offset + w ∧
       ((sys_read_v1 fd bufNull buflen ft store allocOk vopR cOk).ret = 0 ∨
        (sys_read_v1 fd bufNull buflen ft store allocOk vopR cOk).ret = EFAULT)) := by
  refine ⟨?_, ?_, ?_, ?_⟩
  · intro fd bufNull buflen ft store allocOk copyinOk vopW hret
    rcases sys_write_v1_cases fd bufNull buflen ft store allocOk copyinOk vopW with
      h | h | h | ⟨e, hv, h⟩ | ⟨a, w, hft, hv, h⟩
    · rw [h]; exact ⟨rfl, rfl⟩
    · rw [h]; exact ⟨rfl, rfl⟩
    · rw [h]; exact ⟨rfl, rfl⟩
    · rw [h]; exact ⟨rfl, rfl⟩
    · rw [h] at hret; exact absurd rfl hret
  · intro fd bufNull buflen ft store allocOk copyinOk vopW a w hft hrv
    rcases sys_write_v1_cases fd bufNull buflen ft store allocOk copyinOk vopW with
      h | h | h | ⟨e, hv, h⟩ | ⟨a0, w0, hft0, hv, h⟩
    · rw [h] at hrv; exact Option.noConfusion hrv
    · rw [h] at hrv; exact Option.noConfusion hrv
    · rw [h] at hrv; exact Option.noConfusion hrv
    · rw [h] at hrv; exact Option.noConfusion hrv
    · have ha : a0 = a := by
        rw [hft] at hft0; exact (Option.some.injEq _ _ ▸ hft0).symm
      subst ha
      rw [h] at hrv ⊢
      have hw : (w0 : Int) = w := by
        simpa using hrv
      refine ⟨rfl, ?_⟩
      simp [upd, hw]
  · intro fd bufNull buflen ft store allocOk vopR cOk hret hrv
    rcases sys_read_v1_cases fd bufNull buflen ft store allocOk vopR cOk with
      h | h | h | ⟨e, hv, h⟩ | ⟨a, c, hft, hv, hc, h⟩ | ⟨a, c, hft, hv, hc, h⟩
    · rw [h]
    · rw [h]
    · rw [h]
    · rw [h]
    · rw [h] at hrv; exact Option.noConfusion hrv
    · rw [h] at hret; exact absurd rfl hret
  · intro fd bufNull buflen ft store allocOk vopR cOk a w hft hrv
    rcases sys_read_v1_cases fd bufNull buflen ft store allocOk vopR cOk with
      h | h | h | ⟨e, hv, h⟩ | ⟨a0, c, hft0, hv, hc, h⟩ | ⟨a0, c, hft0, hv, hc, h⟩
    · rw [h] at hrv; exact Option.noConfusion hrv
    · rw [h] at hrv; exact Option.noConfusion hrv
    · rw [h] at hrv; exact Option.noConfusion hrv
    · rw [h] at hrv; exact Option.noConfusion hrv
    · have ha : a0 = a := by
        rw [hft] at hft0; exact (Option.some.injEq _ _ ▸ hft0).symm
      subst ha
      rw [h] at hrv ⊢
      have hw : (c : Int) = w := by simpa using hrv
      exact ⟨by simp [upd, hw], Or.inr rfl⟩
    · have ha : a0 = a := by
        rw [hft] at hft0; exact (Option.some.injEq _ _ ▸ hft0).symm
      subst ha
      rw [h] at hrv ⊢
      have hw : (c : Int) = w := by simpa using hrv
      exact ⟨by simp [upd, hw], Or.inl rfl⟩

/-- C3 witness: the amended theorem at the concrete table ftC3: a write
error leaves the offset at 10, and a successful 5-byte read moves the
offset from 10 to 15 with 5 in the result scalar. -/
theorem C3_rw_offset_witness :
    (sys_write_v1 3 false 5 ftC3 stC3 true true (.error ENOSPC)).store2 = stC3 ∧
    ((sys_read_v1 3 false 5 ftC3 stC3 true (.ok 5) true).store2 0).offset =
      (stC3 0).offset + 5 :=
  ⟨(C3_rw_offset_amended.1 3 false 5 ftC3 stC3 true true (.error ENOSPC)
      (by decide)).1,
   (C3_rw_offset_amended.2.2.2 3 false 5 ftC3 stC3 true (.ok 5) true 0 5
      (by decide) (by decide)).1⟩

theorem alignDown4_mod (x : Nat) : alignDown x 4 % 4 = 0 := by
  unfold alignDown; omega

theorem alignDown8_mod (x : Nat) : alignDown x 8 % 8 = 0 := by
  unfold alignDown; omega

theorem copy_args_strings_aligned :
    ∀ (lens : List Nat) (sp : Nat),
    ((copy_args_strings lens sp).2).all (fun a => decide (a % 4 = 0)) = true := by
  intro lens
  induction lens with
  | nil => intro sp; rfl
  | cons len rest ih =>
    intro sp
    simp only [copy_args_strings, List.all_cons, Bool.and_eq_true]
    exact ⟨by simp [alignDown4_mod], ih sp⟩

/-- C4 (code_bug).  The claim holds of copy_args_to_stack (helpers.c): every
recorded argv string address is a multiple of 4 and the final stack pointer
is a multiple of 8.  The inline marshalling of the first sys_execv revision
diverges: with two argument strings of lengths 6 and 2 (strlen+1) and
initial stack pointer 4096 it records the string address 4094 (not 4-byte
aligned, despite its own Align-stack-pointer comment) and hands
enter_new_process the stack pointer 4076, which is not a multiple of 8
because the 8-byte alignment is applied before the pointer-array block is
subtracted. -/
theorem C4_argv_alignment :
    (∀ (lens : List Nat) (sp : Nat),
       ((copy_args_to_stack lens sp).2).all (fun a => decide (a % 4 = 0)) = true) ∧
    (∀ (lens : List Nat) (sp : Nat), (copy_args_to_stack lens sp).1 % 8 = 0) ∧
    (sys_execv_marshal [6, 2] 4096).2 = [4088, 4094] ∧
    4094 % 4 ≠ 0 ∧
    (sys_execv_marshal [6, 2] 4096).1 = 4076 ∧
    4076 % 8 ≠ 0 := by
  refine ⟨?_, ?_, by decide, by decide, by decide, by decide⟩
  · intro lens sp
    exact copy_args_strings_aligned lens sp
  · intro lens sp
    exact alignDown8_mod _

theorem find_free_spec (ft : FileTable) :
    ∀ (n s f : Nat),
    (List.range' s n).find? (fun i => (ft i).isNone) = some f →
    s ≤ f ∧ f < s + n ∧ ft f = none ∧ ∀ j, s ≤ j → j < f → ft j ≠ none := by
  intro n
  induction n with
  | zero => intro s f h; exact absurd h (by simp)
  | succ n ih =>
    intro s f h
    rw [List.range'_succ, List.find?_cons] at h
    cases hs : (ft s).isNone with
    | true =>
      rw [hs] at h
      have hf : s = f := by
        simpa using h
      subst hf
      refine ⟨le_refl s, by omega, Option.isNone_iff_eq_none.mp hs, ?_⟩
      intro j hj1 hj2
      omega
    | false =>
      rw [hs] at h
      obtain ⟨h1, h2, h3, h4⟩ := ih (s + 1) f h
      refine ⟨by omega, by omega, h3, ?_⟩
      intro j hj1 hj2
      by_cases hjs : j = s
      · subst hjs
        intro hc
        rw [hc] at hs
        exact Bool.noConfusion hs
      · exact h4 j (by omega) hj2

theorem find_free_hit (ft : FileTable) :
    ∀ (n s f : Nat), s ≤ f → f < s + n → ft f = none →
    (∀ j, s ≤ j → j < f → ft j ≠ none) →
    (List.range' s n).find? (fun i => (ft i).isNone) = some f := by
  intro n
  induction n with
  | zero => intro s f h1 h2; omega
  | succ n ih =>
    intro s f h1 h2 h3 h4
    rw [List.range'_succ, List.find?_cons]
    by_cases hsf : s = f
    · subst hsf
      rw [show (ft s).isNone = true from Option.isNone_iff_eq_none.mpr h3]
    · have hss : ft s ≠ none := h4 s (le_refl s) (by omega)
      rw [show (ft s).isNone = false from by
        cases hh : ft s with
        | none => exact absurd hh hss
        | some b => rfl]
      exact ih (s + 1) f (by omega) (by omega) h3
        (fun j hj1 hj2 => h4 j (by omega) hj2)

/-- C5 (corrected).  The first sys_open revision scans from descriptor 3, not
from 0: on a table with every slot empty it installs at descriptor 3,
although descriptor 0 is the lowest empty slot. -/
theorem C5_open_counterexample :
    ¬ (∀ (ft : FileTable) (f : Nat), sys_open_findfd_v1 ft = some f →
        ∀ j, j < f → ft j ≠ none) := by
  intro h
  have h3 : sys_open_findfd_v1 ftEmpty = some 3 := by decide
  exact absurd rfl (h ftEmpty 3 h3 0 (by decide))

/-- C5 (amended).  The sys_open revision at file_syscalls.c:829-836 installs
at the lowest-numbered empty slot scanning from descriptor 0, and after
closing a descriptor below every empty slot a new open returns that same
descriptor.  The revision at file_syscalls.c:190-199 scans from descriptor 3
(0-2 are reserved for the std streams), returning the lowest empty slot of
the range [3, OPEN_MAX), with the same close-then-reopen round trip within
that range. -/
theorem C5_open_lowest_fd_amended :
    (∀ (ft : FileTable) (f : Nat), sys_open_findfd_v2 ft = some f →
       f < OPEN_MAX ∧ ft f = none ∧ ∀ j, j < f → ft j ≠ none) ∧
    (∀ (ft : FileTable) (store : OFStore) (fd a : Nat), fd < OPEN_MAX →
       ft fd = some a → (∀ j, j < fd → ft j ≠ none) →
       sys_open_findfd_v2 (sys_close_v1 (fd : Int) ft store).2.1 = some fd) ∧
    (∀ (ft : FileTable) (f : Nat), sys_open_findfd_v1 ft = some f →
       3 ≤ f ∧ f < OPEN_MAX ∧ ft f = none ∧ ∀ j, 3 ≤ j → j < f → ft j ≠ none) ∧
    (∀ (ft : FileTable) (store : OFStore) (fd a : Nat), 3 ≤ fd → fd < OPEN_MAX →
       ft fd = some a → (∀ j, 3 ≤ j → j < fd → ft j ≠ none) →
       sys_open_findfd_v1 (sys_close_v1 (fd : Int) ft store).2.1 = some fd) := by
  refine ⟨?_, ?_, ?_, ?_⟩
  · intro ft f h
    rw [sys_open_findfd_v2, List.range_eq_range'] at h
    obtain ⟨h1, h2, h3, h4⟩ := find_free_spec ft OPEN_MAX 0 f h
    exact ⟨by omega, h3, fun j hj => h4 j (by omega) hj⟩
  · intro ft store fd a hlt hft hmin
    have hclose : (sys_close_v1 (fd : Int) ft store).2.1 = upd ft fd none := by
      rw [sys_close_v1, if_neg (by push_neg; constructor <;> [omega; exact_mod_cast hlt])]
      rw [show ((fd : Int)).toNat = fd from Int.toNat_natCast fd, hft]
    rw [hclose, sys_open_findfd_v2, List.range_eq_range']
    apply find_free_hit
    · omega
    · omega
    · simp [upd]
    · intro j hj1 hj2
      have : ft j ≠ none := hmin j hj2
      simp only [upd]
      rw [if_neg (by omega)]
      exact this
  · intro ft f h
    rw [sys_open_findfd_v1] at h
    obtain ⟨h1, h2, h3, h4⟩ := find_free_spec ft (OPEN_MAX - 3) 3 f h
    exact ⟨h1, by omega, h3, fun j hj1 hj2 => h4 j hj1 hj2⟩
  · intro ft store fd a h3 hlt hft hmin
    have hclose : (sys_close_v1 (fd : Int) ft store).2.1 = upd ft fd none := by
      rw [sys_close_v1, if_neg (by push_neg; constructor <;> [omega; exact_mod_cast hlt])]
      rw [show ((fd : Int)).toNat = fd from Int.toNat_natCast fd, hft]
    rw [hclose, sys_open_findfd_v1]
    apply find_free_hit
    · omega
    · omega
    · simp [upd]
    · intro j hj1 hj2
      have : ft j ≠ none := hmin j hj1 hj2
      simp only [upd]
      rw [if_neg (by omega)]
      exact this

/-- C5 witness: the amended theorem at the concrete table ftC5 (descriptors
0-3 installed): closing descriptor 1 and scanning again yields descriptor 1;
the v1 round trip at descriptor 3 yields 3. -/
theorem C5_open_witness :
    sys_open_findfd_v2 (sys_close_v1 (1 : Int) ftC5 sC1).2.1 = some 1 ∧
    sys_open_findfd_v1 (sys_close_v1 (3 : Int) ftC5 sC1).2.1 = some 3 :=
  ⟨C5_open_lowest_fd_amended.2.1 ftC5 sC1 1 11 (by decide) (by decide)
     (by decide),
   C5_open_lowest_fd_amended.2.2.2 ftC5 sC1 3 13 (by decide) (by decide)
     (by decide) (by decide)⟩


theorem sys_lseek_commit_ret0 (store : OFStore) (a : Nat) (newOff : Int) :
    (sys_lseek_commit store a newOff).ret = 0 →
    (sys_lseek_commit store a newOff).retval2 = some newOff ∧
    ((sys_lseek_commit store a newOff).store2 a).offset = newOff := by
  unfold sys_lseek_commit
  by_cases h : newOff < 0
  · rw [if_pos h]
    intro h0
    exact absurd h0 (by simp [EINVAL])
  · rw [if_neg h]
    intro _
    exact ⟨rfl, by simp [upd]⟩

/-- C6 (code_bug).  The first sys_lseek revision satisfies the claim in
full: EINVAL for a whence outside SET/CUR/END and for every negative
resulting offset, ESPIPE for a non-seekable vnode, and on success the new
offset is stored in the Open-File and the same value is returned through
retval.  The second revision executes retval = of->offset before computing,
overwriting the retval pointer itself: at descriptor 3 with offset 0 and
SEEK_SET to 5 it returns success but writes 5 to address 0 (the old offset
value) and leaves the caller's retval cell at address 1000 untouched. -/
theorem C6_lseek_behavior :
    (∀ (fd pos : Int) (whence : Nat) (ft : FileTable) (store : OFStore)
       (seekable : Nat → Bool) (statRes : Nat → Except Int Int) (a : Nat),
       0 ≤ fd → fd < (OPEN_MAX : Int) → ft fd.toNat = some a →
       seekable (store a).vn = true →
       whence ≠ SEEK_SET → whence ≠ SEEK_CUR → whence ≠ SEEK_END →
       sys_lseek_v1 fd pos whence ft store seekable statRes =
         ⟨EINVAL, store, none⟩) ∧
    (∀ (fd pos : Int) (whence : Nat) (ft : FileTable) (store : OFStore)
       (seekable : Nat → Bool) (statRes : Nat → Except Int Int) (a : Nat),
       0 ≤ fd → fd < (OPEN_MAX : Int) → ft fd.toNat = some a →
       seekable (store a).vn = false →
       sys_lseek_v1 fd pos whence ft store seekable statRes =
         ⟨ESPIPE, store, none⟩) ∧
    (∀ (fd pos : Int) (ft : FileTable) (store : OFStore)
       (seekable : Nat → Bool) (statRes : Nat → Except Int Int) (a : Nat),
       0 ≤ fd → fd < (OPEN_MAX : Int) → ft fd.toNat = some a →
       seekable (store a).vn = true → pos < 0 →
       sys_lseek_v1 fd pos SEEK_SET ft store seekable statRes =
         ⟨EINVAL, store, none⟩) ∧
    (∀ (fd pos : Int) (ft : FileTable) (store : OFStore)
       (seekable : Nat → Bool) (statRes : Nat → Except Int Int) (a : Nat),
       0 ≤ fd → fd < (OPEN_MAX : Int) → ft fd.toNat = some a →
       seekable (store a).vn = true → (store a).offset + pos < 0 →
       sys_lseek_v1 fd pos SEEK_CUR ft store seekable statRes =
         ⟨EINVAL, store, none⟩) ∧
    (∀ (fd pos size : Int) (ft : FileTable) (store : OFStore)
       (seekable : Nat → Bool) (statRes : Nat → Except Int Int) (a : Nat),
       0 ≤ fd → fd < (OPEN_MAX : Int) → ft fd.toNat = some a →
       seekable (store a).vn = true → statRes (store a).vn = .ok size →
       size + pos < 0 →
       sys_lseek_v1 fd pos SEEK_END ft store seekable statRes =
         ⟨EINVAL, store, none⟩) ∧
    (∀ (fd pos : Int) (whence : Nat) (ft : FileTable) (store : OFStore)
       (seekable : Nat → Bool) (statRes : Nat → Except Int Int) (a : Nat),
       ft fd.toNat = some a →
       (∀ e, statRes (store a).vn = .error e → e ≠ 0) →
       (sys_lseek_v1 fd pos whence ft store seekable statRes).ret = 0 →
       ∃ w, (sys_lseek_v1 fd pos whence ft store seekable statRes).retval2 =
              some w ∧
            ((sys_lseek_v1 fd pos whence ft store seekable statRes).store2 a).offset
              = w) ∧
    ((sys_lseek_v2 3 5 SEEK_SET ftC6 stC6 (fun _ => true) (fun _ => .ok 100)
        memC6 1000).ret = 0 ∧
     (sys_lseek_v2 3 5 SEEK_SET ftC6 stC6 (fun _ => true) (fun _ => .ok 100)
        memC6 1000).mem2 1000 = -1 ∧
     (sys_lseek_v2 3 5 SEEK_SET ftC6 stC6 (fun _ => true) (fun _ => .ok 100)
        memC6 1000).mem2 0 = 5 ∧
     ((sys_lseek_v2 3 5 SEEK_SET ftC6 stC6 (fun _ => true) (fun _ => .ok 100)
        memC6 1000).store2 0).offset = 5) := by
  refine ⟨?_, ?_, ?_, ?_, ?_, ?_, by decide, by decide, by decide, by decide⟩
  · intro fd pos whence ft store seekable statRes a h0 h1 hft hseek hw1 hw2 hw3
    have hr : ¬ (fd < 0 ∨ fd ≥ (OPEN_MAX : Int)) := by omega
    simp [sys_lseek_v1, hr, hft, hseek, hw1, hw2, hw3]
  · intro fd pos whence ft store seekable statRes a h0 h1 hft hseek
    have hr : ¬ (fd < 0 ∨ fd ≥ (OPEN_MAX : Int)) := by omega
    simp [sys_lseek_v1, hr, hft, hseek]
  · intro fd pos ft store seekable statRes a h0 h1 hft hseek hpos
    have hr : ¬ (fd < 0 ∨ fd ≥ (OPEN_MAX : Int)) := by omega
    simp [sys_lseek_v1, hr, hft, hseek, hpos, SEEK_SET, SEEK_CUR, SEEK_END]
  · intro fd pos ft store seekable statRes a h0 h1 hft hseek hneg
    have hr : ¬ (fd < 0 ∨ fd ≥ (OPEN_MAX : Int)) := by omega
    by_cases hguard : pos < 0 ∧ (store a).offset < -pos
    · simp [sys_lseek_v1, hr, hft, hseek, SEEK_SET, SEEK_CUR, SEEK_END, hguard]
    · simp [sys_lseek_v1, hr, hft, hseek, SEEK_SET, SEEK_CUR, SEEK_END, hguard,
        sys_lseek_commit, hneg]
  · intro fd pos size ft store seekable statRes a h0 h1 hft hseek hstat hneg
    have hr : ¬ (fd < 0 ∨ fd ≥ (OPEN_MAX : Int)) := by omega
    by_cases hguard : pos < 0 ∧ size < -pos
    · simp [sys_lseek_v1, hr, hft, hseek, SEEK_SET, SEEK_CUR, SEEK_END, hstat,
        hguard]
    · simp [sys_lseek_v1, hr, hft, hseek, SEEK_SET, SEEK_CUR, SEEK_END, hstat,
        hguard, sys_lseek_commit, hneg]
  · intro fd pos whence ft store seekable statRes a hft hstatPos hret
    by_cases hr : fd < 0 ∨ fd ≥ (OPEN_MAX : Int)
    · rw [show sys_lseek_v1 fd pos whence ft store seekable statRes =
          ⟨EBADF, store, none⟩ from by simp [sys_lseek_v1, hr]] at hret
      exact absurd hret (by simp [EBADF])
    cases hseek : seekable (store a).vn with
    | false =>
      rw [show sys_lseek_v1 fd pos whence ft store seekable statRes =
          ⟨ESPIPE, store, none⟩ from by simp [sys_lseek_v1, hr, hft, hseek]] at hret
      exact absurd hret (by simp [ESPIPE])
    | true =>
      by_cases hw1 : whence = SEEK_SET
      · subst hw1
        by_cases hpos : pos < 0
        · rw [show sys_lseek_v1 fd pos SEEK_SET ft store seekable statRes =
              ⟨EINVAL, store, none⟩ from by
              simp [sys_lseek_v1, hr, hft, hseek, hpos]] at hret
          exact absurd hret (by simp [EINVAL])
        · have heq : sys_lseek_v1 fd pos SEEK_SET ft store seekable statRes =
              sys_lseek_commit store a pos := by
            simp [sys_lseek_v1, hr, hft, hseek, hpos]
          rw [heq] at hret ⊢
          obtain ⟨hA, hB⟩ := sys_lseek_commit_ret0 store a pos hret
          exact ⟨pos, hA, hB⟩
      · by_cases hw2 : whence = SEEK_CUR
        · subst hw2
          by_cases hguard : pos < 0 ∧ (store a).offset < -pos
          · have heq : sys_lseek_v1 fd pos SEEK_CUR ft store seekable statRes =
                ⟨EINVAL, store, none⟩ := by
              simp [sys_lseek_v1, hr, hft, hseek, hguard, SEEK_SET, SEEK_CUR]
            rw [heq] at hret
            exact absurd hret (by simp [EINVAL])
          · have heq : sys_lseek_v1 fd pos SEEK_CUR ft store seekable statRes =
                sys_lseek_commit store a ((store a).offset + pos) := by
              simp [sys_lseek_v1, hr, hft, hseek, hguard, SEEK_SET, SEEK_CUR]
            rw [heq] at hret ⊢
            obtain ⟨hA, hB⟩ :=
              sys_lseek_commit_ret0 store a ((store a).offset + pos) hret
            exact ⟨(store a).offset + pos, hA, hB⟩
        · by_cases hw3 : whence = SEEK_END
          · subst hw3
            cases hstat : statRes (store a).vn with
            | error e =>
              rw [show sys_lseek_v1 fd pos SEEK_END ft store seekable statRes =
                  ⟨e, store, none⟩ from by
                  simp [sys_lseek_v1, hr, hft, hseek, hstat, SEEK_SET, SEEK_CUR,
                    SEEK_END]] at hret
              exact absurd hret (hstatPos e hstat)
            | ok size =>
              by_cases hguard : pos < 0 ∧ size < -pos
              · rw [show sys_lseek_v1 fd pos SEEK_END ft store seekable statRes =
                    ⟨EINVAL, store, none⟩ from by
                    simp [sys_lseek_v1, hr, hft, hseek, hstat, hguard, SEEK_SET,
                      SEEK_CUR, SEEK_END]] at hret
                exact absurd hret (by simp [EINVAL])
              · have heq : sys_lseek_v1 fd pos SEEK_END ft store seekable statRes =
                    sys_lseek_commit store a (size + pos) := by
                  simp [sys_lseek_v1, hr, hft, hseek, hstat, hguard, SEEK_SET,
                    SEEK_CUR, SEEK_END]
                rw [heq] at hret ⊢
                obtain ⟨hA, hB⟩ := sys_lseek_commit_ret0 store a (size + pos) hret
                exact ⟨size + pos, hA, hB⟩
          · rw [show sys_lseek_v1 fd pos whence ft store seekable statRes =
                ⟨EINVAL, store, none⟩ from by
                simp [sys_lseek_v1, hr, hft, hseek, hw1, hw2, hw3]] at hret
            exact absurd hret (by simp [EINVAL])

/-- C6 witness: the claim theorem applied at concrete inputs: a non-seekable
vnode at descriptor 3 yields ESPIPE, and a successful SEEK_SET to 5 stores
the new offset and returns the same value through retval. -/
theorem C6_lseek_witness :
    sys_lseek_v1 3 0 SEEK_SET ftC6 stC6 (fun _ => false) (fun _ => .ok 100) =
      ⟨ESPIPE, stC6, none⟩ ∧
    (∃ w, (sys_lseek_v1 3 5 SEEK_SET ftC6 stC6 (fun _ => true)
             (fun _ => .ok 100)).retval2 = some w ∧
          ((sys_lseek_v1 3 5 SEEK_SET ftC6 stC6 (fun _ => true)
             (fun _ => .ok 100)).store2 0).offset = w) :=
  ⟨C6_lseek_behavior.2.1 3 0 SEEK_SET ftC6 stC6 (fun _ => false)
     (fun _ => .ok 100) 0 (by decide) (by decide) (by decide) rfl,
   C6_lseek_behavior.2.2.2.2.2.1 3 5 SEEK_SET ftC6 stC6 (fun _ => true)
     (fun _ => .ok 100) 0 (by decide) (fun e h => Except.noConfusion h)
     (by decide)⟩

theorem pidDist_zero (last r : Nat) (hl1 : 1 ≤ last) (hl2 : last ≤ PROC_MAX)
    (hr1 : 1 ≤ r) (hr2 : r ≤ PROC_MAX) (h : pidDist last r = 0) : r = last := by
  unfold pidDist at h
  split at h <;> omega

theorem pidDist_inj (last r p : Nat) (hl1 : 1 ≤ last) (hl2 : last ≤ PROC_MAX)
    (hr1 : 1 ≤ r) (hr2 : r ≤ PROC_MAX) (hp1 : 1 ≤ p) (hp2 : p ≤ PROC_MAX)
    (h : pidDist last r = pidDist last p) : r = p := by
  unfold pidDist at h
  split at h <;> split at h <;> omega

theorem pidDist_le (last p : Nat) (hl1 : 1 ≤ last) (hl2 : last ≤ PROC_MAX)
    (hp1 : 1 ≤ p) (hp2 : p ≤ PROC_MAX) : pidDist last p ≤ PROC_MAX - 1 := by
  unfold pidDist
  split <;> omega

theorem wrapPid_range (p : Nat) (hp1 : 1 ≤ p) (hp2 : p ≤ PROC_MAX) :
    1 ≤ wrapPid p ∧ wrapPid p ≤ PROC_MAX := by
  unfold wrapPid
  constructor <;> (split <;> omega)

theorem pidDist_wrap (last p : Nat) (hl1 : 1 ≤ last) (hl2 : last ≤ PROC_MAX)
    (hp1 : 1 ≤ p) (hp2 : p ≤ PROC_MAX) (hne : p ≠ last) :
    pidDist last (wrapPid p) + 1 = pidDist last p := by
  unfold pidDist wrapPid
  split <;> (try split) <;> (try split) <;> omega

theorem pidDist_wrap_last (last : Nat) (hl1 : 1 ≤ last) (hl2 : last ≤ PROC_MAX) :
    pidDist last (wrapPid last) = PROC_MAX - 1 := by
  unfold pidDist wrapPid
  split <;> (try split) <;> omega

theorem find_valid_pid_loop_spec (occ : Nat → Bool) (last : Nat)
    (hl1 : 1 ≤ last) (hl2 : last ≤ PROC_MAX) :
    ∀ (fuel p : Nat), 1 ≤ p → p ≤ PROC_MAX → pidDist last p < fuel →
    (match find_valid_pid_loop occ last fuel p with
     | .found q => 1 ≤ q ∧ q ≤ PROC_MAX ∧ occ q = false ∧
         pidDist last q ≤ pidDist last p ∧
         (∀ r, 1 ≤ r → r ≤ PROC_MAX → pidDist last q < pidDist last r →
           pidDist last r ≤ pidDist last p → occ r = true)
     | .nofree => ∀ r, 1 ≤ r → r ≤ PROC_MAX → r ≠ last →
         pidDist last r ≤ pidDist last p → occ r = true
     | .loops => False) := by
  intro fuel
  induction fuel with
  | zero => intro p h1 h2 h3; omega
  | succ fuel ih =>
    intro p h1 h2 h3
    have hstep : find_valid_pid_loop occ last (fuel + 1) p =
        if p = last then .nofree
        else if occ p = false then .found p
        else find_valid_pid_loop occ last fuel (wrapPid p) := rfl
    rw [hstep]
    by_cases hpl : p = last
    · rw [if_pos hpl]
      subst hpl
      intro r hr1 hr2 hrl hrd
      exfalso
      have hz : pidDist p p = 0 := by simp [pidDist]
      have : pidDist p r = 0 := by omega
      exact hrl (pidDist_zero p r hl1 hl2 hr1 hr2 this)
    · rw [if_neg hpl]
      cases hocc : occ p with
      | false =>
        rw [if_pos rfl]
        exact ⟨h1, h2, hocc, le_refl _, fun r hr1 hr2 hd1 hd2 => by omega⟩
      | true =>
        rw [if_neg (by simp [hocc])]
        obtain ⟨hw1, hw2⟩ := wrapPid_range p h1 h2
        have hwd := pidDist_wrap last p hl1 hl2 h1 h2 hpl
        have hrec := ih (wrapPid p) hw1 hw2 (by omega)
        cases hres : find_valid_pid_loop occ last fuel (wrapPid p) with
        | found q =>
          rw [hres] at hrec
          obtain ⟨hq1, hq2, hq3, hq4, hq5⟩ := hrec
          refine ⟨hq1, hq2, hq3, by omega, ?_⟩
          intro r hr1 hr2 hd1 hd2
          by_cases hdp : pidDist last r = pidDist last p
          · have : r = p := pidDist_inj last r p hl1 hl2 hr1 hr2 h1 h2 hdp
            subst this
            exact hocc
          · exact hq5 r hr1 hr2 hd1 (by omega)
        | nofree =>
          rw [hres] at hrec
          intro r hr1 hr2 hrl hrd
          by_cases hdp : pidDist last r = pidDist last p
          · have : r = p := pidDist_inj last r p hl1 hl2 hr1 hr2 h1 h2 hdp
            subst this
            exact hocc
          · exact hrec r hr1 hr2 hrl (by omega)
        | loops =>
          rw [hres] at hrec
          exact hrec.elim

/-- C7 (corrected).  The scan loop stops as soon as it returns to last_pid
without ever examining that slot: with last_pid = 5 and every slot occupied
except slot 5 itself, find_valid_pid returns the no-free-pid value although
slot 5 in [1, PROC_MAX] is empty. -/
theorem C7_pid_alloc_counterexample :
    ¬ (∀ (occ : Nat → Bool) (last : Nat), 1 ≤ last → last ≤ PROC_MAX →
        (∃ r, 1 ≤ r ∧ r ≤ PROC_MAX ∧ occ r = false) →
        ∃ q, find_valid_pid occ last = .found q) := by
  intro h
  obtain ⟨q, hq⟩ := h occC7 5 (by decide) (by decide)
    ⟨5, by decide, by decide, by decide⟩
  have hc : find_valid_pid occC7 5 = .nofree := by decide
  rw [hc] at hq
  exact pidScan.noConfusion hq

/-- C7 (amended).  For 1 <= last_pid <= PROC_MAX the scan always
terminates; on success it returns a pid in [1, PROC_MAX] (never 0) whose
slot is empty, every slot strictly earlier in the circular scan order from
last_pid+1 is occupied, and last_pid is set to the returned pid; it returns
the no-free value exactly when every slot in [1, PROC_MAX] other than
last_pid itself is occupied - slot last_pid is never examined - so
allocation succeeds whenever some slot other than last_pid is empty. -/
theorem C7_pid_alloc_amended :
    ∀ (occ : Nat → Bool) (last : Nat), 1 ≤ last → last ≤ PROC_MAX →
    (find_valid_pid occ last ≠ .loops) ∧
    (∀ q, find_valid_pid occ last = .found q →
       1 ≤ q ∧ q ≤ PROC_MAX ∧ occ q = false ∧
       find_valid_pid_last occ last = q ∧
       (∀ r, 1 ≤ r → r ≤ PROC_MAX → pidDist last q < pidDist last r →
         occ r = true)) ∧
    (find_valid_pid occ last = .nofree →
       ∀ r, 1 ≤ r → r ≤ PROC_MAX → r ≠ last → occ r = true) ∧
    ((∃ r, 1 ≤ r ∧ r ≤ PROC_MAX ∧ r ≠ last ∧ occ r = false) →
       ∃ q, find_valid_pid occ last = .found q) := by
  intro occ last hl1 hl2
  obtain ⟨hw1, hw2⟩ := wrapPid_range last hl1 hl2
  have hd0 : pidDist last (wrapPid last) = PROC_MAX - 1 :=
    pidDist_wrap_last last hl1 hl2
  have hspec := find_valid_pid_loop_spec occ last hl1 hl2 PROC_MAX
    (wrapPid last) hw1 hw2 (by rw [hd0]; unfold PROC_MAX; omega)
  refine ⟨?_, ?_, ?_, ?_⟩
  · intro hcon
    rw [show find_valid_pid_loop occ last PROC_MAX (wrapPid last) =
        find_valid_pid occ last from rfl, hcon] at hspec
    exact hspec
  · intro q hq
    rw [show find_valid_pid_loop occ last PROC_MAX (wrapPid last) =
        find_valid_pid occ last from rfl, hq] at hspec
    obtain ⟨hq1, hq2, hq3, hq4, hq5⟩ := hspec
    refine ⟨hq1, hq2, hq3, ?_, ?_⟩
    · unfold find_valid_pid_last
      rw [hq]
    · intro r hr1 hr2 hd
      refine hq5 r hr1 hr2 hd ?_
      have := pidDist_le last r hl1 hl2 hr1 hr2
      omega
  · intro hq r hr1 hr2 hrl
    rw [show find_valid_pid_loop occ last PROC_MAX (wrapPid last) =
        find_valid_pid occ last from rfl, hq] at hspec
    refine hspec r hr1 hr2 hrl ?_
    have := pidDist_le last r hl1 hl2 hr1 hr2
    omega
  · intro ⟨r, hr1, hr2, hrl, hrocc⟩
    cases hres : find_valid_pid occ last with
    | found q => exact ⟨q, rfl⟩
    | nofree =>
      exfalso
      rw [show find_valid_pid_loop occ last PROC_MAX (wrapPid last) =
          find_valid_pid occ last from rfl, hres] at hspec
      have := hspec r hr1 hr2 hrl (by
        have := pidDist_le last r hl1 hl2 hr1 hr2
        omega)
      rw [hrocc] at this
      exact Bool.noConfusion this
    | loops =>
      exfalso
      rw [show find_valid_pid_loop occ last PROC_MAX (wrapPid last) =
          find_valid_pid occ last from rfl, hres] at hspec
      exact hspec

/-- C7 witness: the amended theorem at occupancy occC7b (slots up to 6
full) and last_pid 3: the scan finds pid 7, updates last_pid to 7, and
every earlier slot in the scan order is occupied. -/
theorem C7_pid_alloc_witness :
    1 ≤ 7 ∧ 7 ≤ PROC_MAX ∧ occC7b 7 = false ∧
    find_valid_pid_last occC7b 3 = 7 ∧
    (∀ r, 1 ≤ r → r ≤ PROC_MAX → pidDist 3 7 < pidDist 3 r →
      occC7b r = true) :=
  (C7_pid_alloc_amended occC7b 3 (by decide) (by decide)).2.1 7 (by decide)

theorem sys_lseek_v1_ret_cases (fd pos : Int) (whence : Nat) (ft : FileTable)
    (store : OFStore) (seekable : Nat → Bool)
    (statRes : Nat → Except Int Int) :
    (sys_lseek_v1 fd pos whence ft store seekable statRes).ret = 0 ∨
    ((sys_lseek_v1 fd pos whence ft store seekable statRes).retval2 = none ∧
     (sys_lseek_v1 fd pos whence ft store seekable statRes).store2 = store ∧
     ((sys_lseek_v1 fd pos whence ft store seekable statRes).ret = EBADF ∨
      (sys_lseek_v1 fd pos whence ft store seekable statRes).ret = ESPIPE ∨
      (sys_lseek_v1 fd pos whence ft store seekable statRes).ret = EINVAL ∨
      (∃ v e, statRes v = .error e ∧
        (sys_lseek_v1 fd pos whence ft store seekable statRes).ret = e))) := by
  by_cases hr : fd < 0 ∨ fd ≥ (OPEN_MAX : Int)
  · rw [show sys_lseek_v1 fd pos whence ft store seekable statRes =
        ⟨EBADF, store, none⟩ from by simp [sys_lseek_v1, hr]]
    exact Or.inr ⟨rfl, rfl, Or.inl rfl⟩
  cases hft : ft fd.toNat with
  | none =>
    rw [show sys_lseek_v1 fd pos whence ft store seekable statRes =
        ⟨EBADF, store, none⟩ from by simp [sys_lseek_v1, hr, hft]]
    exact Or.inr ⟨rfl, rfl, Or.inl rfl⟩
  | some a =>
    cases hseek : seekable (store a).vn with
    | false =>
      rw [show sys_lseek_v1 fd pos whence ft store seekable statRes =
          ⟨ESPIPE, store, none⟩ from by simp [sys_lseek_v1, hr, hft, hseek]]
      exact Or.inr ⟨rfl, rfl, Or.inr (Or.inl rfl)⟩
    | true =>
      have hcommit : ∀ w : Int,
          (sys_lseek_commit store a w).ret = 0 ∨
          ((sys_lseek_commit store a w).retval2 = none ∧
           (sys_lseek_commit store a w).store2 = store ∧
           (sys_lseek_commit store a w).ret = EINVAL) := by
        intro w
        unfold sys_lseek_commit
        by_cases hw : w < 0
        · rw [if_pos hw]; exact Or.inr ⟨rfl, rfl, rfl⟩
        · rw [if_neg hw]; exact Or.inl rfl
      by_cases hw1 : whence = SEEK_SET
      · subst hw1
        by_cases hpos : pos < 0
        · rw [show sys_lseek_v1 fd pos SEEK_SET ft store seekable statRes =
              ⟨EINVAL, store, none⟩ from by
              simp [sys_lseek_v1, hr, hft, hseek, hpos]]
          exact Or.inr ⟨rfl, rfl, Or.inr (Or.inr (Or.inl rfl))⟩
        · rw [show sys_lseek_v1 fd pos SEEK_SET ft store seekable statRes =
              sys_lseek_commit store a pos from by
              simp [sys_lseek_v1, hr, hft, hseek, hpos]]
          rcases hcommit pos with h | ⟨h1, h2, h3⟩
          · exact Or.inl h
          · exact Or.inr ⟨h1, h2, Or.inr (Or.inr (Or.inl h3))⟩
      · by_cases hw2 : whence = SEEK_CUR
        · subst hw2
          by_cases hguard : pos < 0 ∧ (store a).offset < -pos
          · rw [show sys_lseek_v1 fd pos SEEK_CUR ft store seekable statRes =
                ⟨EINVAL, store, none⟩ from by
                simp [sys_lseek_v1, hr, hft, hseek, hguard, SEEK_SET, SEEK_CUR]]
            exact Or.inr ⟨rfl, rfl, Or.inr (Or.inr (Or.inl rfl))⟩
          · rw [show sys_lseek_v1 fd pos SEEK_CUR ft store seekable statRes =
                sys_lseek_commit store a ((store a).offset + pos) from by
                simp [sys_lseek_v1, hr, hft, hseek, hguard, SEEK_SET, SEEK_CUR]]
            rcases hcommit ((store a).offset + pos) with h | ⟨h1, h2, h3⟩
            · exact Or.inl h
            · exact Or.inr ⟨h1, h2, Or.inr (Or.inr (Or.inl h3))⟩
        · by_cases hw3 : whence = SEEK_END
          · subst hw3
            cases hstat : statRes (store a).vn with
            | error e =>
              rw [show sys_lseek_v1 fd pos SEEK_END ft store seekable statRes =
                  ⟨e, store, none⟩ from by
                  simp [sys_lseek_v1, hr, hft, hseek, hstat, SEEK_SET, SEEK_CUR,
                    SEEK_END]]
              exact Or.inr ⟨rfl, rfl, Or.inr (Or.inr (Or.inr
                ⟨(store a).vn, e, hstat, rfl⟩))⟩
            | ok size =>
              by_cases hguard : pos < 0 ∧ size < -pos
              · rw [show sys_lseek_v1 fd pos SEEK_END ft store seekable statRes =
                    ⟨EINVAL, store, none⟩ from by
                    simp [sys_lseek_v1, hr, hft, hseek, hstat, hguard, SEEK_SET,
                      SEEK_CUR, SEEK_END]]
                exact Or.inr ⟨rfl, rfl, Or.inr (Or.inr (Or.inl rfl))⟩
              · rw [show sys_lseek_v1 fd pos SEEK_END ft store seekable statRes =
                    sys_lseek_commit store a (size + pos) from by
                    simp [sys_lseek_v1, hr, hft, hseek, hstat, hguard, SEEK_SET,
                      SEEK_CUR, SEEK_END]]
                rcases hcommit (size + pos) with h | ⟨h1, h2, h3⟩
                · exact Or.inl h
                · exact Or.inr ⟨h1, h2, Or.inr (Or.inr (Or.inl h3))⟩
          · rw [show sys_lseek_v1 fd pos whence ft store seekable statRes =
                ⟨EINVAL, store, none⟩ from by
                simp [sys_lseek_v1, hr, hft, hseek, hw1, hw2, hw3]]
            exact Or.inr ⟨rfl, rfl, Or.inr (Or.inr (Or.inl rfl))⟩

/-- C8 (corrected).  The part_004 revision of sys_write returns NEGATED
error kinds: on the failing input fd = -1 it returns -EBADF, which is not
strictly positive.  And sys_read of file_syscalls.c writes the result
scalar before the final copyout, so on a failing call the result scalar has
been modified. -/
theorem C8_error_sign_counterexample :
    (¬ (∀ (fd : Int) (size : Nat) (ft : FileTable) (store : OFStore)
          (vopW : Except Int Nat), fd < 0 ∨ (OPEN_MAX : Int) ≤ fd →
          0 < (sys_write_p4 fd size ft store vopW).1)) ∧
    (¬ (∀ (fd : Int) (bufNull : Bool) (buflen : Nat) (ft : FileTable)
          (store : OFStore) (allocOk : Bool) (vopR : Except Int Nat)
          (cOk : Bool),
          (sys_read_v1 fd bufNull buflen ft store allocOk vopR cOk).ret ≠ 0 →
          (sys_read_v1 fd bufNull buflen ft store allocOk vopR cOk).retval2 =
            none)) := by
  constructor
  · intro h
    have h1 := h (-1) 4 ftC3 stC3 (.ok 4) (by decide)
    rw [show (sys_write_p4 (-1) 4 ftC3 stC3 (.ok 4)).1 = -EBADF from by decide]
      at h1
    exact absurd h1 (by decide)
  · intro h
    have h1 := h 3 false 5 ftC3 stC3 true (.ok 5) false (by decide)
    rw [show (sys_read_v1 3 false 5 ftC3 stC3 true (.ok 5) false).retval2 =
        some 5 from by decide] at h1
    exact Option.noConfusion h1


/-- C8 (amended).  Every handler in file_syscalls.c (first revision: write,
read, open, close, lseek, dup2, chdir, getcwd) returns a strictly positive
error kind on failure - provided the collaborator oracles themselves report
positive error kinds - and leaves the result scalar unwritten and the file
table unchanged on that failing call, with one exception: sys_read on a
failing final copyout returns EFAULT with the result scalar already
written.  The part_004 write/read revision instead returns negated error
kinds. -/
theorem C8_error_sign_amended :
    (∀ (fd : Int) (bufNull : Bool) (buflen : Nat) (ft : FileTable)
       (store : OFStore) (allocOk copyinOk : Bool) (vopW : Except Int Nat),
       (∀ e, vopW = Except.error e → 0 < e) →
       (sys_write_v1 fd bufNull buflen ft store allocOk copyinOk vopW).ret ≠ 0 →
       0 < (sys_write_v1 fd bufNull buflen ft store allocOk copyinOk vopW).ret ∧
       (sys_write_v1 fd bufNull buflen ft store allocOk copyinOk vopW).retval2 =
         none) ∧
    (∀ (fd : Int) (bufNull : Bool) (buflen : Nat) (ft : FileTable)
       (store : OFStore) (allocOk : Bool) (vopR : Except Int Nat) (cOk : Bool),
       (∀ e, vopR = Except.error e → 0 < e) →
       (sys_read_v1 fd bufNull buflen ft store allocOk vopR cOk).ret ≠ 0 →
       0 < (sys_read_v1 fd bufNull buflen ft store allocOk vopR cOk).ret ∧
       ((sys_read_v1 fd bufNull buflen ft store allocOk vopR cOk).retval2 = none ∨
        (sys_read_v1 fd bufNull buflen ft store allocOk vopR cOk).ret = EFAULT)) ∧
    (∀ (filenameNull : Bool) (flags : Nat) (ft : FileTable) (store : OFStore)
       (newAddr : Nat) (allocPathOk copyinstrOk : Bool) (vfsRes : Except Int Nat)
       (allocOfOk lockOk : Bool) (statRes : Nat → Except Int Int),
       (∀ e, vfsRes = Except.error e → 0 < e) →
       (∀ v e, statRes v = Except.error e → 0 < e) →
       (sys_open_v1 filenameNull flags ft store newAddr allocPathOk copyinstrOk
         vfsRes allocOfOk lockOk statRes).ret ≠ 0 →
       0 < (sys_open_v1 filenameNull flags ft store newAddr allocPathOk
             copyinstrOk vfsRes allocOfOk lockOk statRes).ret ∧
       (sys_open_v1 filenameNull flags ft store newAddr allocPathOk copyinstrOk
         vfsRes allocOfOk lockOk statRes).retval2 = none ∧
       (sys_open_v1 filenameNull flags ft store newAddr allocPathOk copyinstrOk
         vfsRes allocOfOk lockOk statRes).ft2 = ft) ∧
    (∀ (fd : Int) (ft : FileTable) (store : OFStore),
       (sys_close_v1 fd ft store).1 ≠ 0 →
       0 < (sys_close_v1 fd ft store).1 ∧ (sys_close_v1 fd ft store).2.1 = ft) ∧
    (∀ (fd pos : Int) (whence : Nat) (ft : FileTable) (store : OFStore)
       (seekable : Nat → Bool) (statRes : Nat → Except Int Int),
       (∀ v e, statRes v = Except.error e → 0 < e) →
       (sys_lseek_v1 fd pos whence ft store seekable statRes).ret ≠ 0 →
       0 < (sys_lseek_v1 fd pos whence ft store seekable statRes).ret ∧
       (sys_lseek_v1 fd pos whence ft store seekable statRes).retval2 = none) ∧
    (∀ (oldfd newfd : Int) (ft : FileTable) (store : OFStore),
       (sys_dup2 oldfd newfd ft store).1 ≠ 0 →
       0 < (sys_dup2 oldfd newfd ft store).1 ∧
       (sys_dup2 oldfd newfd ft store).2.2.2 = none ∧
       (sys_dup2 oldfd newfd ft store).2.1 = ft) ∧
    (∀ (pathNull : Bool) (copyinstrRes : Except Int Unit) (vfsChdirRes : Int),
       (∀ e, copyinstrRes = Except.error e → 0 < e) → 0 ≤ vfsChdirRes →
       sys_chdir pathNull copyinstrRes vfsChdirRes ≠ 0 →
       0 < sys_chdir pathNull copyinstrRes vfsChdirRes) ∧
    (∀ (bufNull : Bool) (buflen : Nat) (allocOk : Bool) (vfsRes : Except Int Nat)
       (copyoutOk : Bool),
       (∀ e, vfsRes = Except.error e → 0 < e) →
       (sys___getcwd bufNull buflen allocOk vfsRes copyoutOk).1 ≠ 0 →
       0 < (sys___getcwd bufNull buflen allocOk vfsRes copyoutOk).1 ∧
       (sys___getcwd bufNull buflen allocOk vfsRes copyoutOk).2 = none) := by
  refine ⟨?_, ?_, ?_, ?_, ?_, ?_, ?_, ?_⟩
  · intro fd bufNull buflen ft store allocOk copyinOk vopW hpos hret
    rcases sys_write_v1_cases fd bufNull buflen ft store allocOk copyinOk vopW with
      h | h | h | ⟨e, hv, h⟩ | ⟨a, w, hft, hv, h⟩
    · rw [h]; exact ⟨by norm_num [EBADF], rfl⟩
    · rw [h]; exact ⟨by norm_num [EFAULT], rfl⟩
    · rw [h]; exact ⟨by norm_num [ENOMEM], rfl⟩
    · rw [h]; exact ⟨hpos e hv, rfl⟩
    · rw [h] at hret; exact absurd rfl hret
  · intro fd bufNull buflen ft store allocOk vopR cOk hpos hret
    rcases sys_read_v1_cases fd bufNull buflen ft store allocOk vopR cOk with
      h | h | h | ⟨e, hv, h⟩ | ⟨a, c, hft, hv, hc, h⟩ | ⟨a, c, hft, hv, hc, h⟩
    · rw [h]; exact ⟨by norm_num [EBADF], Or.inl rfl⟩
    · rw [h]; exact ⟨by norm_num [EFAULT], Or.inl rfl⟩
    · rw [h]; exact ⟨by norm_num [ENOMEM], Or.inl rfl⟩
    · rw [h]; exact ⟨hpos e hv, Or.inl rfl⟩
    · rw [h]; exact ⟨by norm_num [EFAULT], Or.inr rfl⟩
    · rw [h] at hret; exact absurd rfl hret
  · intro filenameNull flags ft store newAddr allocPathOk copyinstrOk vfsRes
      allocOfOk lockOk statRes hv hs hret
    by_cases h1 : filenameNull
    · have hres : sys_open_v1 filenameNull flags ft store newAddr allocPathOk
          copyinstrOk vfsRes allocOfOk lockOk statRes = ⟨EFAULT, ft, store, none⟩ :=
        by simp [sys_open_v1, h1]
      rw [hres]
      exact ⟨by norm_num [EFAULT], rfl, rfl⟩
    by_cases h2 : allocPathOk = false
    · have hres : sys_open_v1 filenameNull flags ft store newAddr allocPathOk
          copyinstrOk vfsRes allocOfOk lockOk statRes = ⟨ENOMEM, ft, store, none⟩ :=
        by simp [sys_open_v1, h1, h2]
      rw [hres]
      exact ⟨by norm_num [ENOMEM], rfl, rfl⟩
    by_cases h3 : copyinstrOk = false
    · have hres : sys_open_v1 filenameNull flags ft store newAddr allocPathOk
          copyinstrOk vfsRes allocOfOk lockOk statRes = ⟨EFAULT, ft, store, none⟩ :=
        by simp [sys_open_v1, h1, h2, h3]
      rw [hres]
      exact ⟨by norm_num [EFAULT], rfl, rfl⟩
    cases hvfs : vfsRes with
    | error e =>
      have hres : sys_open_v1 filenameNull flags ft store newAddr allocPathOk
          copyinstrOk (Except.error e) allocOfOk lockOk statRes =
          ⟨e, ft, store, none⟩ := by simp [sys_open_v1, h1, h2, h3]
      rw [hres]
      exact ⟨hv e hvfs, rfl, rfl⟩
    | ok vn =>
      cases hfd : sys_open_findfd_v1 ft with
      | none =>
        have hres : sys_open_v1 filenameNull flags ft store newAddr allocPathOk
            copyinstrOk (Except.ok vn) allocOfOk lockOk statRes =
            ⟨EMFILE, ft, store, none⟩ := by simp [sys_open_v1, h1, h2, h3, hfd]
        rw [hres]
        exact ⟨by norm_num [EMFILE], rfl, rfl⟩
      | some fd =>
        by_cases h4 : allocOfOk = false
        · have hres : sys_open_v1 filenameNull flags ft store newAddr allocPathOk
              copyinstrOk (Except.ok vn) allocOfOk lockOk statRes =
              ⟨ENOMEM, ft, store, none⟩ := by
            simp [sys_open_v1, h1, h2, h3, hfd, h4]
          rw [hres]
          exact ⟨by norm_num [ENOMEM], rfl, rfl⟩
        by_cases h5 : lockOk = false
        · have hres : sys_open_v1 filenameNull flags ft store newAddr allocPathOk
              copyinstrOk (Except.ok vn) allocOfOk lockOk statRes =
              ⟨ENOMEM, ft, store, none⟩ := by
            simp [sys_open_v1, h1, h2, h3, hfd, h4, h5]
          rw [hres]
          exact ⟨by norm_num [ENOMEM], rfl, rfl⟩
        by_cases h6 : flags &&& O_ACCMODE ≠ O_RDONLY ∧
            flags &&& O_ACCMODE ≠ O_WRONLY ∧ flags &&& O_ACCMODE ≠ O_RDWR
        · have hres : sys_open_v1 filenameNull flags ft store newAddr allocPathOk
              copyinstrOk (Except.ok vn) allocOfOk lockOk statRes =
              ⟨EINVAL, ft, store, none⟩ := by
            simp [sys_open_v1, h1, h2, h3, hfd, h4, h5, h6]
          rw [hres]
          exact ⟨by norm_num [EINVAL], rfl, rfl⟩
        by_cases h7 : flags &&& O_APPEND ≠ 0
        · cases hstat : statRes vn with
          | error e =>
            have hres : sys_open_v1 filenameNull flags ft store newAddr
                allocPathOk copyinstrOk (Except.ok vn) allocOfOk lockOk statRes =
                ⟨e, ft, store, none⟩ := by
              simp [sys_open_v1, h1, h2, h3, hfd, h4, h5, h6, h7, hstat]
            rw [hres]
            exact ⟨hs vn e hstat, rfl, rfl⟩
          | ok size =>
            have hres : sys_open_v1 filenameNull flags ft store newAddr
                allocPathOk copyinstrOk (Except.ok vn) allocOfOk lockOk statRes =
                ⟨0, upd ft fd (some newAddr),
                  upd store newAddr ⟨vn, flags &&& O_ACCMODE, size, 1⟩,
                  some fd⟩ := by
              simp [sys_open_v1, h1, h2, h3, hfd, h4, h5, h6, h7, hstat]
            rw [hvfs] at hret
            rw [hres] at hret
            exact absurd rfl hret
        · have hres : sys_open_v1 filenameNull flags ft store newAddr allocPathOk
              copyinstrOk (Except.ok vn) allocOfOk lockOk statRes =
              ⟨0, upd ft fd (some newAddr),
                upd store newAddr ⟨vn, flags &&& O_ACCMODE, 0, 1⟩, some fd⟩ := by
            simp [sys_open_v1, h1, h2, h3, hfd, h4, h5, h6, h7]
          rw [hvfs] at hret
          rw [hres] at hret
          exact absurd rfl hret
  · intro fd ft store hret
    by_cases h1 : fd < 0 ∨ fd ≥ (OPEN_MAX : Int)
    · have hres : sys_close_v1 fd ft store = (EBADF, ft, store) := by
        simp [sys_close_v1, h1]
      rw [hres]
      exact ⟨by norm_num [EBADF], rfl⟩
    cases hft : ft fd.toNat with
    | none =>
      have hres : sys_close_v1 fd ft store = (EBADF, ft, store) := by
        simp [sys_close_v1, h1, hft]
      rw [hres]
      exact ⟨by norm_num [EBADF], rfl⟩
    | some a =>
      have hres : sys_close_v1 fd ft store =
          (0, upd ft fd.toNat none,
            upd store a { store a with count := (store a).count - 1 }) := by
        simp [sys_close_v1, h1, hft]
      rw [hres] at hret
      exact absurd rfl hret
  · intro fd pos whence ft store seekable statRes hs hret
    rcases sys_lseek_v1_ret_cases fd pos whence ft store seekable statRes with
      h | ⟨hn, hst, h | h | h | ⟨v, e, hstat, h⟩⟩
    · exact absurd h hret
    · exact ⟨by rw [h]; norm_num [EBADF], hn⟩
    · exact ⟨by rw [h]; norm_num [ESPIPE], hn⟩
    · exact ⟨by rw [h]; norm_num [EINVAL], hn⟩
    · exact ⟨by rw [h]; exact hs v e hstat, hn⟩
  · intro oldfd newfd ft store hret
    by_cases h1 : oldfd < 0 ∨ oldfd ≥ (OPEN_MAX : Int) ∨ newfd < 0 ∨
        newfd ≥ (OPEN_MAX : Int)
    · have hres : sys_dup2 oldfd newfd ft store = (EBADF, ft, store, none) := by
        unfold sys_dup2
        rw [if_pos h1]
      rw [hres]
      exact ⟨by norm_num [EBADF], rfl, rfl⟩
    cases hft : ft oldfd.toNat with
    | none =>
      have hres : sys_dup2 oldfd newfd ft store = (EBADF, ft, store, none) := by
        unfold sys_dup2
        rw [if_neg h1, hft]
      rw [hres]
      exact ⟨by norm_num [EBADF], rfl, rfl⟩
    | some a =>
      by_cases heq : oldfd = newfd
      · have hres : sys_dup2 oldfd newfd ft store = (0, ft, store, some newfd) := by
          unfold sys_dup2
          rw [if_neg h1, hft]
          simp only []
          rw [if_pos heq]
        rw [hres] at hret
        exact absurd rfl hret
      · cases hnew : ft newfd.toNat with
        | some b =>
          have hres : sys_dup2 oldfd newfd ft store =
              (0, upd (upd ft newfd.toNat none) newfd.toNat (some a),
                bumpCount
                  (upd store b { store b with count := (store b).count - 1 }) a,
                some newfd) := by
            unfold sys_dup2
            rw [if_neg h1, hft]
            simp only []
            rw [if_neg heq, hnew]
          rw [hres] at hret
          exact absurd rfl hret
        | none =>
          have hres : sys_dup2 oldfd newfd ft store =
              (0, upd ft newfd.toNat (some a), bumpCount store a, some newfd) := by
            unfold sys_dup2
            rw [if_neg h1, hft]
            simp only []
            rw [if_neg heq, hnew]
          rw [hres] at hret
          exact absurd rfl hret
  · intro pathNull copyinstrRes vfsChdirRes hc hvfs hret
    by_cases h1 : pathNull
    · have hres : sys_chdir pathNull copyinstrRes vfsChdirRes = EFAULT := by
        simp [sys_chdir, h1]
      rw [hres]
      norm_num [EFAULT]
    cases hcr : copyinstrRes with
    | error e =>
      have hres : sys_chdir pathNull (Except.error e) vfsChdirRes = e := by
        simp [sys_chdir, h1]
      rw [hres]
      exact hc e hcr
    | ok u =>
      have hres : sys_chdir pathNull (Except.ok u) vfsChdirRes = vfsChdirRes := by
        simp [sys_chdir, h1]
      rw [hcr] at hret
      rw [hres] at hret ⊢
      omega
  · intro bufNull buflen allocOk vfsRes copyoutOk hv hret
    by_cases h1 : bufNull
    · have hres : sys___getcwd bufNull buflen allocOk vfsRes copyoutOk =
          (EFAULT, none) := by simp [sys___getcwd, h1]
      rw [hres]
      exact ⟨by norm_num [EFAULT], rfl⟩
    by_cases h2 : buflen = 0
    · have hres : sys___getcwd bufNull buflen allocOk vfsRes copyoutOk =
          (EINVAL, none) := by simp [sys___getcwd, h1, h2]
      rw [hres]
      exact ⟨by norm_num [EINVAL], rfl⟩
    by_cases h3 : allocOk = false
    · have hres : sys___getcwd bufNull buflen allocOk vfsRes copyoutOk =
          (ENOMEM, none) := by simp [sys___getcwd, h1, h2, h3]
      rw [hres]
      exact ⟨by norm_num [ENOMEM], rfl⟩
    cases hvfs : vfsRes with
    | error e =>
      have hres : sys___getcwd bufNull buflen allocOk (Except.error e) copyoutOk =
          (e, none) := by simp [sys___getcwd, h1, h2, h3]
      rw [hres]
      exact ⟨hv e hvfs, rfl⟩
    | ok len =>
      by_cases h4 : copyoutOk = false
      · have hres : sys___getcwd bufNull buflen allocOk (Except.ok len) copyoutOk =
            (EFAULT, none) := by simp [sys___getcwd, h1, h2, h3, h4]
        rw [hres]
        exact ⟨by norm_num [EFAULT], rfl⟩
      · have hres : sys___getcwd bufNull buflen allocOk (Except.ok len) copyoutOk =
            (0, some (len : Int)) := by simp [sys___getcwd, h1, h2, h3, h4]
        rw [hvfs] at hret
        rw [hres] at hret
        exact absurd rfl hret

/-- C8 witness: the amended theorem applied at concrete failing inputs: the
bad descriptor -1 makes sys_write return the positive EBADF without writing
retval, and whence 9 makes sys_lseek return the positive EINVAL without
writing retval. -/
theorem C8_error_sign_witness :
    (0 < (sys_write_v1 (-1) false 4 ftC3 stC3 true true (.ok 4)).ret ∧
     (sys_write_v1 (-1) false 4 ftC3 stC3 true true (.ok 4)).retval2 = none) ∧
    (0 < (sys_lseek_v1 3 0 9 ftC3 stC3 (fun _ => true)
            (fun _ => .ok 100)).ret ∧
     (sys_lseek_v1 3 0 9 ftC3 stC3 (fun _ => true)
            (fun _ => .ok 100)).retval2 = none) :=
  ⟨C8_error_sign_amended.1 (-1) false 4 ftC3 stC3 true true (.ok 4)
     (fun e h => by exact absurd h (by simp)) (by decide),
   C8_error_sign_amended.2.2.2.2.1 3 0 9 ftC3 stC3 (fun _ => true)
     (fun _ => .ok 100) (fun v e h => Except.noConfusion h) (by decide)⟩

theorem tblC9_inv : tablePidInv tblC9 osC9 := by
  intro i obj hle h
  by_cases hi : i = 0
  · subst hi
    have hobj : obj = 0 := by
      have h0 := h
      simp [tblC9] at h0
      omega
    subst hobj
    simp [osC9]
  · exact absurd h (by simp [tblC9, hi])

/-- C9 (corrected).  proc_add publishes the table entry before proc_create
assigns the pid field: starting from the post-boot table (kernel process at
slot 0) with a fresh object whose pid field holds the allocator garbage
7777, the state between proc_add and the p_pid assignment has
table[1] = obj while obj.p_pid = 7777, violating the invariant. -/
theorem C9_table_pid_counterexample :
    ¬ (∀ (tbl : Nat → Option Nat) (os : ObjStore) (pid : Int) (obj : Nat),
        tablePidInv tbl os → 1 ≤ pid → pid ≤ (PROC_MAX : Int) →
        tablePidInv (proc_create_mid tbl os pid obj).1
          (proc_create_mid tbl os pid obj).2) := by
  intro h
  have hmid := h tblC9 osC9 1 1 tblC9_inv (by decide) (by decide)
  have hslot : (proc_create_mid tblC9 osC9 1 1).1 1 = some 1 := by decide
  have := hmid 1 1 (by decide) hslot
  rw [show ((proc_create_mid tblC9 osC9 1 1).2 1).p_pid = 7777 from by decide]
    at this
  exact absurd this (by decide)

/-- C9 (amended).  The invariant holds at the completion of each table
operation: a completed proc_create (proc_add followed by the p_pid
assignment) re-establishes it for a fresh object and an in-range pid, and
proc_remove preserves it; but it is not established before the process
becomes visible: proc_add publishes the entry first, the pid field is
assigned only afterwards (indeed proc_add's own return value reads the
not-yet-assigned field). -/
theorem C9_table_pid_invariant_amended :
    (∀ (tbl : Nat → Option Nat) (os : ObjStore) (pid : Int) (obj : Nat),
       tablePidInv tbl os → 1 ≤ pid → pid ≤ (PROC_MAX : Int) →
       (∀ i, i ≤ PROC_MAX → tbl i ≠ some obj) →
       tablePidInv (proc_create_fin tbl os pid obj).1
         (proc_create_fin tbl os pid obj).2) ∧
    (∀ (tbl : Nat → Option Nat) (os : ObjStore) (pid : Int),
       tablePidInv tbl os → tablePidInv (proc_remove tbl pid) os) ∧
    (∀ (os : ObjStore) (pid : Int) (obj : Nat),
       1 ≤ pid → pid ≤ (PROC_MAX : Int) →
       proc_add_ret os pid obj true = (os obj).p_pid) := by
  refine ⟨?_, ?_, ?_⟩
  · intro tbl os pid obj hinv hp1 hp2 hfresh i obj2 hle hslot
    have hrange : ¬ (pid ≤ 0 ∨ pid > (PROC_MAX : Int)) := by omega
    rw [show (proc_create_fin tbl os pid obj).1 = upd tbl pid.toNat (some obj)
        from by simp [proc_create_fin, proc_add_table, hrange]] at hslot
    by_cases hi : i = pid.toNat
    · subst hi
      have hobj : obj2 = obj := by
        simp [upd] at hslot
        omega
      subst hobj
      rw [show (proc_create_fin tbl os pid obj2).2 obj2 = { p_pid := pid } from by
        simp [proc_create_fin, upd]]
      simp
      omega
    · rw [show upd tbl pid.toNat (some obj) i = tbl i from by
        simp [upd, hi]] at hslot
      have hne : obj2 ≠ obj := by
        intro hcon
        subst hcon
        exact hfresh i hle hslot
      rw [show (proc_create_fin tbl os pid obj).2 obj2 = os obj2 from by
        simp [proc_create_fin, upd, hne]]
      exact hinv i obj2 hle hslot
  · intro tbl os pid hinv i obj hle hslot
    unfold proc_remove at hslot
    by_cases hrange : pid ≤ 0 ∨ pid > (PROC_MAX : Int)
    · rw [if_pos hrange] at hslot
      exact hinv i obj hle hslot
    · rw [if_neg hrange] at hslot
      by_cases hi : i = pid.toNat
      · subst hi
        rw [show upd tbl pid.toNat none pid.toNat = none from by simp [upd]]
          at hslot
        exact Option.noConfusion hslot
      · rw [show upd tbl pid.toNat none i = tbl i from by simp [upd, hi]]
          at hslot
        exact hinv i obj hle hslot
  · intro os pid obj hp1 hp2
    have hrange : ¬ (pid ≤ 0 ∨ pid > (PROC_MAX : Int)) := by omega
    simp [proc_add_ret, hrange]

/-- C9 witness: the amended theorem at the concrete post-boot state: after
the completed proc_create of object 1 at pid 1, the stored object's pid
field equals its slot. -/
theorem C9_table_pid_witness :
    ((proc_create_fin tblC9 osC9 1 1).2 1).p_pid = (1 : Int) :=
  C9_table_pid_invariant_amended.1 tblC9 osC9 1 1 tblC9_inv (by decide)
    (by decide) (by decide) 1 1 (by decide) (by decide)

/-- C10 (confirmed).  proc_search returns NULL for every pid <= 0 and every
pid > PROC_MAX; process_table_init stores the kernel process only at slot
0, a slot no lookup can name, and proc_add never writes out-of-range slots,
so as long as the kernel process object appears in no slot of
[1, PROC_MAX], no proc_search call can ever return it. -/
theorem C10_proc_search_bounds :
    (∀ (α : Type) (tbl : Nat → Option α) (pid : Int), pid ≤ 0 →
       proc_search tbl pid = none) ∧
    (∀ (α : Type) (tbl : Nat → Option α) (pid : Int), pid > (PROC_MAX : Int) →
       proc_search tbl pid = none) ∧
    (∀ kId : Nat, process_table_init kId 0 = some kId) ∧
    (∀ (kId : Nat) (tbl : Nat → Option Nat),
       (∀ i, i ≤ PROC_MAX → 1 ≤ i → tbl i ≠ some kId) →
       ∀ pid : Int, proc_search tbl pid ≠ some kId) ∧
    (∀ kId : Nat, ∀ i, i ≤ PROC_MAX → 1 ≤ i →
       process_table_init kId i ≠ some kId) ∧
    (∀ (kId : Nat) (tbl : Nat → Option Nat) (pid : Int) (obj : Nat),
       obj ≠ kId → (∀ i, i ≤ PROC_MAX → 1 ≤ i → tbl i ≠ some kId) →
       ∀ i, i ≤ PROC_MAX → 1 ≤ i → proc_add_table tbl pid obj i ≠ some kId) := by
  refine ⟨?_, ?_, ?_, ?_, ?_, ?_⟩
  · intro α tbl pid hpid
    rw [proc_search, if_pos (Or.inl hpid)]
  · intro α tbl pid hpid
    rw [proc_search, if_pos (Or.inr hpid)]
  · intro kId
    simp [process_table_init]
  · intro kId tbl hk pid
    unfold proc_search
    by_cases hrange : pid ≤ 0 ∨ pid > (PROC_MAX : Int)
    · rw [if_pos hrange]
      exact fun h => Option.noConfusion h
    · rw [if_neg hrange]
      refine hk pid.toNat ?_ ?_
      · omega
      · omega
  · intro kId i hle h1
    simp [process_table_init]
    omega
  · intro kId tbl pid obj hobj hk i hle h1
    unfold proc_add_table
    by_cases hrange : pid ≤ 0 ∨ pid > (PROC_MAX : Int)
    · rw [if_pos hrange]
      exact hk i hle h1
    · rw [if_neg hrange]
      by_cases hi : i = pid.toNat
      · subst hi
        rw [show upd tbl pid.toNat (some obj) pid.toNat = some obj from by
          simp [upd]]
        intro hcon
        exact hobj (Option.some.injEq _ _ ▸ hcon)
      · rw [show upd tbl pid.toNat (some obj) i = tbl i from by simp [upd, hi]]
        exact hk i hle h1

/-- C10 witness: proc_search with the post-init table (kernel object 42 at
slot 0) returns NULL for pid 0 and can never return the kernel object. -/
theorem C10_proc_search_witness :
    proc_search (process_table_init 42) (0 : Int) = none ∧
    proc_search (process_table_init 42) (7 : Int) ≠ some 42 :=
  ⟨C10_proc_search_bounds.1 Nat (process_table_init 42) 0 (by decide),
   C10_proc_search_bounds.2.2.2.1 42 (process_table_init 42) (by decide) 7⟩
